import Mathlib

set_option maxHeartbeats 1000000
set_option maxRecDepth 100000

/- Verification of the FAT32 filesystem core of the WowOS repository
   (fatfs crate: layout.rs, block_cache.rs, vfs.rs).

   Machine integers are modelled as Nat, with explicit truncation
   (mod 2^w, or the source's own bit masks) exactly where the Rust code
   wraps or masks.  Loops that the source runs without a bound are
   modelled with an explicit fuel argument and return an Option; the
   value none means the loop did not finish within the given fuel, so
   "the loop terminates" is rendered as "some fuel returns some value". -/

namespace WowFat

/-! ## Constants (fatfs/src/layout.rs) -/

def FREE_CLUSTER : Nat := 0x00000000

def END_CLUSTER : Nat := 0x0FFFFFF8

def BAD_CLUSTER : Nat := 0x0FFFFFF7

def ATTR_LONG_NAME : Nat := 0x0F

def DIRENT_SZ : Nat := 32

/-! ## FAT model (fatfs/src/layout.rs, `struct FAT`)

The FAT sectors are modelled by a store `FatDisk` mapping a sector
number and an in-sector byte offset to the raw 32-bit value stored at
that offset: the source reads and writes FAT entries only as whole
little-endian u32 values through the block cache (`read::<u32>` /
`modify::<u32>` at offset `(4*cluster) % 512`), so u32 granularity is
the granularity at which the code itself touches these sectors. -/

def FatDisk : Type := Nat → Nat → Nat

structure FAT where
  fat1_sector : Nat
  fat2_sector : Nat

/-- `FAT::calculate_pos`: FAT1 sector, FAT2 sector and in-sector offset of
the entry of `cluster` (layout.rs lines 701-708; 512 is hard-coded there). -/
def FAT.calculate_pos (f : FAT) (cluster : Nat) : Nat × Nat × Nat :=
  (f.fat1_sector + cluster * 4 / 512, f.fat2_sector + cluster * 4 / 512, 4 * cluster % 512)

/-- Point update of the FAT store (one `modify::<u32>` through the cache). -/
def updFat (fd : FatDisk) (sec off v : Nat) : FatDisk :=
  fun s o => if s = sec ∧ o = off then v else fd s o

/-- `FAT::get_next_cluster` (layout.rs lines 741-763): read the raw FAT1
value; if it is `BAD_CLUSTER` fall back to the FAT2 value; a doubly bad
entry yields 0; the returned value is masked with `0x0FFFFFFF`. -/
def FAT.get_next_cluster (f : FAT) (fd : FatDisk) (cluster : Nat) : Nat :=
  let p := f.calculate_pos cluster
  let fat1_rs := fd p.1 p.2.2
  let fat2_rs := fd p.2.1 p.2.2
  if fat1_rs = BAD_CLUSTER then
    if fat2_rs = BAD_CLUSTER then 0 else fat2_rs &&& 0x0FFFFFFF
  else
    fat1_rs &&& 0x0FFFFFFF

/-- `FAT::set_next_cluster` (layout.rs lines 767-785): write the raw value
`next_cluster` into the FAT1 position and into the FAT2 position of
`cluster`. -/
def FAT.set_next_cluster (f : FAT) (cluster next_cluster : Nat) (fd : FatDisk) : FatDisk :=
  let p := f.calculate_pos cluster
  updFat (updFat fd p.1 p.2.2 next_cluster) p.2.1 p.2.2 next_cluster

/-- The raw FAT1 entry of cluster `c` (the u32 the source reads from
`fat1_sector + c*4/512` at offset `4*c % 512`). -/
def fat1Entry (f : FAT) (fd : FatDisk) (c : Nat) : Nat :=
  fd (f.fat1_sector + c * 4 / 512) (4 * c % 512)

/-- The raw FAT2 entry of cluster `c` (mirrored position). -/
def fat2Entry (f : FAT) (fd : FatDisk) (c : Nat) : Nat :=
  fd (f.fat2_sector + c * 4 / 512) (4 * c % 512)

/-- A sequence of mutations through `set_next_cluster`, applied in order. -/
def applyMuts (f : FAT) (muts : List (Nat × Nat)) (fd : FatDisk) : FatDisk :=
  muts.foldl (fun d m => f.set_next_cluster m.1 m.2 d) fd

lemma set_next_preserves_mirror (f : FAT) (fd : FatDisk) (c0 v : Nat)
    (h0 : c0 < 128 * (f.fat2_sector - f.fat1_sector))
    (hm : ∀ c, c < 128 * (f.fat2_sector - f.fat1_sector) →
      fat1Entry f fd c = fat2Entry f fd c) :
    ∀ c, c < 128 * (f.fat2_sector - f.fat1_sector) →
      fat1Entry f (f.set_next_cluster c0 v fd) c =
        fat2Entry f (f.set_next_cluster c0 v fd) c := by
  intro c hc
  have hmc := hm c hc
  unfold fat1Entry fat2Entry at hmc ⊢
  unfold FAT.set_next_cluster FAT.calculate_pos updFat
  simp only
  by_cases hcc : c = c0
  · subst hcc
    have hne : ¬ (f.fat1_sector + c * 4 / 512 = f.fat2_sector + c * 4 / 512 ∧
        4 * c % 512 = 4 * c % 512) := by
      intro h
      omega
    rw [if_neg hne, if_pos ⟨rfl, rfl⟩, if_pos ⟨rfl, rfl⟩]
  · have h1 : ¬ (f.fat1_sector + c * 4 / 512 = f.fat2_sector + c0 * 4 / 512 ∧
        4 * c % 512 = 4 * c0 % 512) := by
      intro h
      omega
    have h2 : ¬ (f.fat1_sector + c * 4 / 512 = f.fat1_sector + c0 * 4 / 512 ∧
        4 * c % 512 = 4 * c0 % 512) := by
      intro h
      omega
    have h3 : ¬ (f.fat2_sector + c * 4 / 512 = f.fat2_sector + c0 * 4 / 512 ∧
        4 * c % 512 = 4 * c0 % 512) := by
      intro h
      omega
    have h4 : ¬ (f.fat2_sector + c * 4 / 512 = f.fat1_sector + c0 * 4 / 512 ∧
        4 * c % 512 = 4 * c0 % 512) := by
      intro h
      omega
    rw [if_neg h1, if_neg h2, if_neg h3, if_neg h4]
    exact hmc

/-- C2: `set_next_cluster(c, v)` writes `v` into both FAT copies at the
positions computed by `calculate_pos` (same in-sector offset
`(c*4) mod 512`), so for every cluster inside the FAT area, after any
sequence of mutations through `set_next_cluster` starting from a
mirrored state, the FAT1 entry and the FAT2 entry are equal.  The FAT
area holds `128 * (fat2_sector - fat1_sector)` entries: clusters beyond
it would alias into the second copy, which no well-formed volume has. -/
theorem C2_dual_fat_mirror (f : FAT) (muts : List (Nat × Nat)) (fd : FatDisk)
    (hmuts : ∀ m ∈ muts, m.1 < 128 * (f.fat2_sector - f.fat1_sector))
    (hinit : ∀ c, c < 128 * (f.fat2_sector - f.fat1_sector) →
      fat1Entry f fd c = fat2Entry f fd c) :
    ∀ c, c < 128 * (f.fat2_sector - f.fat1_sector) →
      fat1Entry f (applyMuts f muts fd) c = fat2Entry f (applyMuts f muts fd) c := by
  induction muts generalizing fd with
  | nil => exact hinit
  | cons m t ih =>
    have hstep := set_next_preserves_mirror f fd m.1 m.2
      (hmuts m (List.mem_cons_self m t)) hinit
    have htail : ∀ x ∈ t, x.1 < 128 * (f.fat2_sector - f.fat1_sector) := by
      intro x hx
      exact hmuts x (List.mem_cons_of_mem m hx)
    exact ih (f.set_next_cluster m.1 m.2 fd) htail hstep

/-- Witness for C2 at a concrete FAT and mutation sequence. -/
theorem C2_dual_fat_mirror_witness :
    ((∀ m ∈ [((5 : Nat), (7 : Nat))], m.1 < 128 * ((3 : Nat) - 1)) ∧
      (∀ c, c < 128 * ((3 : Nat) - 1) →
        fat1Entry ⟨1, 3⟩ (fun _ _ => 0) c = fat2Entry ⟨1, 3⟩ (fun _ _ => 0) c)) ∧
    ∀ c, c < 128 * ((3 : Nat) - 1) →
      fat1Entry ⟨1, 3⟩ (applyMuts ⟨1, 3⟩ [(5, 7)] (fun _ _ => 0)) c =
        fat2Entry ⟨1, 3⟩ (applyMuts ⟨1, 3⟩ [(5, 7)] (fun _ _ => 0)) c :=
  ⟨⟨by decide, fun c hc => rfl⟩,
    C2_dual_fat_mirror ⟨1, 3⟩ [(5, 7)] (fun _ _ => 0) (by decide) (fun c hc => rfl)⟩

/-- Restatement of the spec's description of `next(c)` (§4.4): return the
FAT1 entry masked to its low 28 bits; if the FAT1 entry reads
`BAD_CLUSTER`, fall back to the FAT2 entry masked to 28 bits; return 0
when both copies read `BAD_CLUSTER`. -/
def nextClusterSpec (f : FAT) (fd : FatDisk) (c : Nat) : Nat :=
  let e1 := fat1Entry f fd c
  let e2 := fat2Entry f fd c
  if e1 = BAD_CLUSTER then
    if e2 = BAD_CLUSTER then 0 else e2 % 2 ^ 28
  else
    e1 % 2 ^ 28

/-- C4: `get_next_cluster` returns the FAT1 entry masked to its low 28
bits, falls back to the FAT2 entry (masked) when FAT1 reads
`BAD_CLUSTER`, and returns 0 when both copies read `BAD_CLUSTER`. -/
theorem C4_get_next_cluster (f : FAT) (fd : FatDisk) (c : Nat) :
    f.get_next_cluster fd c = nextClusterSpec f fd c := by
  have hmask : ∀ n : Nat, n &&& 0x0FFFFFFF = n % 2 ^ 28 := by
    intro n
    have h : (0x0FFFFFFF : Nat) = 2 ^ 28 - 1 := by norm_num
    rw [h, Nat.and_pow_two_sub_one_eq_mod]
  unfold FAT.get_next_cluster nextClusterSpec FAT.calculate_pos fat1Entry fat2Entry
  simp only [hmask]

/-! ## Short directory entry and its checksum (fatfs/src/layout.rs)

The 8-byte name and 3-byte extension are byte lists (well-formed entries
have lengths 8 and 3); the remaining fields kept here are the ones the
verified operations touch. -/

structure ShortDirEntry where
  dir_name : List Nat
  dir_extension : List Nat
  dir_attr : Nat
  dir_fst_clus_hi : Nat
  dir_fst_clus_lo : Nat
  dir_file_size : Nat

/-- `ShortDirEntry::new`: the all-zero entry. -/
def ShortDirEntry.new : ShortDirEntry :=
  ⟨List.replicate 8 0, List.replicate 3 0, 0, 0, 0, 0⟩

/-- `ShortDirEntry::first_cluster`: `(hi << 16) + lo`. -/
def ShortDirEntry.first_cluster (e : ShortDirEntry) : Nat :=
  e.dir_fst_clus_hi * 65536 + e.dir_fst_clus_lo

/-- `ShortDirEntry::set_first_cluster`: split into high and low 16 bits. -/
def ShortDirEntry.set_first_cluster (e : ShortDirEntry) (cluster : Nat) : ShortDirEntry :=
  { e with
    dir_fst_clus_hi := (cluster &&& 0xFFFF0000) >>> 16
    dir_fst_clus_lo := cluster &&& 0x0000FFFF }

/-- `ShortDirEntry::clear`: zero the size and the first cluster. -/
def ShortDirEntry.clear (e : ShortDirEntry) : ShortDirEntry :=
  ({ e with dir_file_size := 0 }).set_first_cluster 0

/-- `ShortDirEntry::delete`: `clear`, then write `0xE5` into the first
name byte. -/
def ShortDirEntry.delete (e : ShortDirEntry) : ShortDirEntry :=
  { e.clear with dir_name := e.dir_name.set 0 0xE5 }

/-- One step of the checksum loop of `ShortDirEntry::checksum`
(layout.rs lines 459-476): `sum` is a u8, so every addition wraps
mod 256; the source branches on the low bit of `sum`. -/
def checksumStep (sum b : Nat) : Nat :=
  if sum % 2 = 1 then (0x80 + sum / 2 + b) % 256 else (sum / 2 + b) % 256

/-- `ShortDirEntry::checksum`: fold `checksumStep` over the 11 raw name
bytes (8 name bytes then 3 extension bytes), starting from 0. -/
def ShortDirEntry.checksum (e : ShortDirEntry) : Nat :=
  (e.dir_name ++ e.dir_extension).foldl checksumStep 0

/-- The spec's checksum recurrence, literally:
`sum = (((sum & 1) << 7) | (sum >> 1)) + b  (mod 256)`. -/
def checksumSpecStep (sum b : Nat) : Nat :=
  ((((sum &&& 1) <<< 7) ||| (sum >>> 1)) + b) % 256

/-- Folding the spec's recurrence over a byte list from 0. -/
def checksumSpec (bytes : List Nat) : Nat :=
  bytes.foldl checksumSpecStep 0

lemma checksumStep_eq_spec (s b : Nat) (hs : s < 256) :
    checksumStep s b = checksumSpecStep s b := by
  have hrot : ∀ t : Nat, t < 256 →
      ((t &&& 1) <<< 7) ||| (t >>> 1) = if t % 2 = 1 then 0x80 + t / 2 else t / 2 := by
    decide
  unfold checksumStep checksumSpecStep
  rw [hrot s hs]
  by_cases h : s % 2 = 1 <;> simp [h]

lemma checksumFold_eq_spec (l : List Nat) :
    ∀ s, s < 256 → l.foldl checksumStep s = l.foldl checksumSpecStep s := by
  induction l with
  | nil => intro s _; rfl
  | cons b t ih =>
    intro s hs
    have hstep := checksumStep_eq_spec s b hs
    have hlt : checksumStep s b < 256 := by
      unfold checksumStep
      by_cases h : s % 2 = 1 <;> simp [h] <;> omega
    simp only [List.foldl_cons]
    rw [hstep] at hlt ⊢
    exact ih _ hlt

/-- C3: for every short directory entry, `checksum()` equals the value
obtained by folding the 11 raw name bytes (8 name bytes then 3 extension
bytes) with the spec's recurrence
`sum = (((sum & 1) << 7) | (sum >> 1)) + b (mod 256)`, starting from 0. -/
theorem C3_checksum (e : ShortDirEntry) :
    e.checksum = checksumSpec (e.dir_name ++ e.dir_extension) := by
  unfold ShortDirEntry.checksum checksumSpec
  exact checksumFold_eq_spec _ 0 (by norm_num)

/-! ## Chain walks through the FAT (fatfs/src/layout.rs)

`final_cluster`, `get_all_cluster_of` and `count_claster_num` run
unbounded loops over `get_next_cluster`; the embeddings take a fuel
argument, and return none when the loop has not finished within the
fuel. -/

/-- Loop of `FAT::final_cluster` (layout.rs lines 812-819): walk until
the next pointer is `≥ END_CLUSTER` or 0; return the last cluster
masked to 28 bits. -/
def finalClusterLoop (f : FAT) (fd : FatDisk) : Nat → Nat → Option Nat
  | 0, _ => none
  | fuel + 1, cur =>
    if END_CLUSTER ≤ f.get_next_cluster fd cur ∨ f.get_next_cluster fd cur = 0 then
      some (cur &&& 0x0FFFFFFF)
    else finalClusterLoop f fd fuel (f.get_next_cluster fd cur)

/-- `FAT::final_cluster` (layout.rs lines 809-820): the function first
runs `assert_ne!(start_cluster, 0)` (line 811), so a start cluster of 0
never reaches the loop — the call fails and returns no value (none, for
every fuel); otherwise the loop walks the chain. -/
def FAT.final_clusterF (f : FAT) (fd : FatDisk) (fuel start_cluster : Nat) : Option Nat :=
  if start_cluster = 0 then none else finalClusterLoop f fd fuel start_cluster

/-- `FAT::get_all_cluster_of` (layout.rs lines 825-841): push the current
cluster (masked), stop when the next pointer is `≥ END_CLUSTER` or 0. -/
def FAT.get_all_cluster_ofF (f : FAT) (fd : FatDisk) : Nat → Nat → Option (List Nat)
  | 0, _ => none
  | fuel + 1, cur =>
    if END_CLUSTER ≤ f.get_next_cluster fd cur ∨ f.get_next_cluster fd cur = 0 then
      some [cur &&& 0x0FFFFFFF]
    else
      (f.get_all_cluster_ofF fd fuel (f.get_next_cluster fd cur)).map
        (fun l => (cur &&& 0x0FFFFFFF) :: l)

/-- Loop of `FAT::count_claster_num` (layout.rs lines 846-861): count a
cluster, stop when the next pointer is `≥ END_CLUSTER` or `> 0xF000000`
(note: unlike `get_all_cluster_of`, a next pointer of 0 does NOT stop
this loop). -/
def countLoop (f : FAT) (fd : FatDisk) : Nat → Nat → Option Nat
  | 0, _ => none
  | fuel + 1, cur =>
    if END_CLUSTER ≤ f.get_next_cluster fd cur ∨ 0xF000000 < f.get_next_cluster fd cur then
      some 1
    else (countLoop f fd fuel (f.get_next_cluster fd cur)).map (· + 1)

/-- `FAT::count_claster_num`: 0 for start cluster 0, otherwise the loop. -/
def FAT.count_claster_numF (f : FAT) (fd : FatDisk) (fuel start_cluster : Nat) : Option Nat :=
  if start_cluster = 0 then some 0 else countLoop f fd fuel start_cluster

/-- `n`-fold application of `get_next_cluster`. -/
def iterNext (f : FAT) (fd : FatDisk) : Nat → Nat → Nat
  | 0, c => c
  | n + 1, c => iterNext f fd n (f.get_next_cluster fd c)

/-- Stop condition of `final_cluster` and `get_all_cluster_of`. -/
def chainStop (v : Nat) : Prop := END_CLUSTER ≤ v ∨ v = 0

/-- Stop condition of `count_claster_num`'s loop. -/
def countStop (v : Nat) : Prop := END_CLUSTER ≤ v ∨ 0xF000000 < v

instance (v : Nat) : Decidable (chainStop v) := by unfold chainStop; infer_instance

instance (v : Nat) : Decidable (countStop v) := by unfold countStop; infer_instance

lemma finalLoop_isSome_imp (f : FAT) (fd : FatDisk) :
    ∀ fuel cur, (finalClusterLoop f fd fuel cur).isSome = true →
      ∃ n, chainStop (iterNext f fd (n + 1) cur) := by
  intro fuel
  induction fuel with
  | zero =>
    intro cur h
    simp [finalClusterLoop] at h
  | succ fuel ih =>
    intro cur h
    by_cases hs : END_CLUSTER ≤ f.get_next_cluster fd cur ∨ f.get_next_cluster fd cur = 0
    · exact ⟨0, hs⟩
    · unfold finalClusterLoop at h
      rw [if_neg hs] at h
      obtain ⟨n, hn⟩ := ih _ h
      exact ⟨n + 1, hn⟩

lemma finalLoop_isSome_of_stop (f : FAT) (fd : FatDisk) :
    ∀ n cur, chainStop (iterNext f fd (n + 1) cur) →
      (finalClusterLoop f fd (n + 1) cur).isSome = true := by
  intro n
  induction n with
  | zero =>
    intro cur h
    have h' : END_CLUSTER ≤ f.get_next_cluster fd cur ∨ f.get_next_cluster fd cur = 0 := h
    unfold finalClusterLoop
    rw [if_pos h']
    rfl
  | succ n ih =>
    intro cur h
    by_cases hs : END_CLUSTER ≤ f.get_next_cluster fd cur ∨ f.get_next_cluster fd cur = 0
    · unfold finalClusterLoop
      rw [if_pos hs]
      rfl
    · unfold finalClusterLoop
      rw [if_neg hs]
      exact ih _ h

lemma chainF_isSome_imp (f : FAT) (fd : FatDisk) :
    ∀ fuel cur, (f.get_all_cluster_ofF fd fuel cur).isSome = true →
      ∃ n, chainStop (iterNext f fd (n + 1) cur) := by
  intro fuel
  induction fuel with
  | zero =>
    intro cur h
    simp [FAT.get_all_cluster_ofF] at h
  | succ fuel ih =>
    intro cur h
    by_cases hs : END_CLUSTER ≤ f.get_next_cluster fd cur ∨ f.get_next_cluster fd cur = 0
    · exact ⟨0, hs⟩
    · unfold FAT.get_all_cluster_ofF at h
      rw [if_neg hs] at h
      cases hx : f.get_all_cluster_ofF fd fuel (f.get_next_cluster fd cur) with
      | none => rw [hx] at h; simp at h
      | some l =>
        obtain ⟨n, hn⟩ := ih _ (by rw [hx]; rfl)
        exact ⟨n + 1, hn⟩

lemma chainF_isSome_of_stop (f : FAT) (fd : FatDisk) :
    ∀ n cur, chainStop (iterNext f fd (n + 1) cur) →
      (f.get_all_cluster_ofF fd (n + 1) cur).isSome = true := by
  intro n
  induction n with
  | zero =>
    intro cur h
    have h' : END_CLUSTER ≤ f.get_next_cluster fd cur ∨ f.get_next_cluster fd cur = 0 := h
    unfold FAT.get_all_cluster_ofF
    rw [if_pos h']
    rfl
  | succ n ih =>
    intro cur h
    by_cases hs : END_CLUSTER ≤ f.get_next_cluster fd cur ∨ f.get_next_cluster fd cur = 0
    · unfold FAT.get_all_cluster_ofF
      rw [if_pos hs]
      rfl
    · unfold FAT.get_all_cluster_ofF
      rw [if_neg hs]
      have := ih _ h
      cases hx : f.get_all_cluster_ofF fd (n + 1) (f.get_next_cluster fd cur) with
      | none => rw [hx] at this; simp at this
      | some l => rfl

lemma countLoop_isSome_imp (f : FAT) (fd : FatDisk) :
    ∀ fuel cur, (countLoop f fd fuel cur).isSome = true →
      ∃ n, countStop (iterNext f fd (n + 1) cur) := by
  intro fuel
  induction fuel with
  | zero =>
    intro cur h
    simp [countLoop] at h
  | succ fuel ih =>
    intro cur h
    by_cases hs : END_CLUSTER ≤ f.get_next_cluster fd cur ∨ 0xF000000 < f.get_next_cluster fd cur
    · exact ⟨0, hs⟩
    · unfold countLoop at h
      rw [if_neg hs] at h
      cases hx : countLoop f fd fuel (f.get_next_cluster fd cur) with
      | none => rw [hx] at h; simp at h
      | some m =>
        obtain ⟨n, hn⟩ := ih _ (by rw [hx]; rfl)
        exact ⟨n + 1, hn⟩

lemma countLoop_isSome_of_stop (f : FAT) (fd : FatDisk) :
    ∀ n cur, countStop (iterNext f fd (n + 1) cur) →
      (countLoop f fd (n + 1) cur).isSome = true := by
  intro n
  induction n with
  | zero =>
    intro cur h
    have h' : END_CLUSTER ≤ f.get_next_cluster fd cur ∨ 0xF000000 < f.get_next_cluster fd cur := h
    unfold countLoop
    rw [if_pos h']
    rfl
  | succ n ih =>
    intro cur h
    by_cases hs : END_CLUSTER ≤ f.get_next_cluster fd cur ∨ 0xF000000 < f.get_next_cluster fd cur
    · unfold countLoop
      rw [if_pos hs]
      rfl
    · unfold countLoop
      rw [if_neg hs]
      have := ih _ h
      cases hx : countLoop f fd (n + 1) (f.get_next_cluster fd cur) with
      | none => rw [hx] at this; simp at this
      | some m => rfl

/-- The all-zero FAT store: every next pointer reads 0. -/
def fdZero : FatDisk := fun _ _ => 0

lemma countLoop_fdZero_none : ∀ fuel cur, countLoop ⟨1, 2⟩ fdZero fuel cur = none := by
  intro fuel
  induction fuel with
  | zero => intro cur; rfl
  | succ fuel ih =>
    intro cur
    have hnx : FAT.get_next_cluster ⟨1, 2⟩ fdZero cur = 0 := by
      norm_num [FAT.get_next_cluster, FAT.calculate_pos, fdZero, BAD_CLUSTER, Nat.zero_and]
    unfold countLoop
    rw [hnx, if_neg (by decide), ih 0]
    rfl

/-- Counterexample to C9 as stated: on the all-zero FAT, the walk from
cluster 2 reaches the value 0 in one step (so the claim's termination
condition holds, and `get_all_cluster_of` indeed terminates), yet
`count_claster_num` runs forever, because its loop does not stop on a
next pointer of 0 (layout.rs line 855 tests `>= END_CLUSTER` and
`> 0xF000000` only). -/
theorem C9_counterexample :
    chainStop (iterNext ⟨1, 2⟩ fdZero (0 + 1) 2) ∧
    (FAT.get_all_cluster_ofF ⟨1, 2⟩ fdZero 1 2).isSome = true ∧
    ∀ fuel, FAT.count_claster_numF ⟨1, 2⟩ fdZero fuel 2 = none := by
  refine ⟨by decide, by decide, ?_⟩
  intro fuel
  show countLoop ⟨1, 2⟩ fdZero fuel 2 = none
  exact countLoop_fdZero_none fuel 2

/-- C9 (amended): `final_cluster` returns a value exactly when its
`assert_ne!(start_cluster, 0)` passes (the start cluster is nonzero)
and repeated application of `next` reaches a value that is
`≥ END_CLUSTER` or 0; `get_all_cluster_of` (which has no such assert)
terminates exactly when repeated `next` reaches a value `≥ END_CLUSTER`
or 0; `count_claster_num` terminates exactly when the start cluster is
0 or repeated `next` reaches a value `≥ END_CLUSTER` or `> 0xF000000`
(a next pointer of 0 does not stop its loop).  No walk is bounded by
the total cluster count, so on a chain that never reaches its stop
value (for instance a cycle) the walk loops forever: that is the
right-to-left direction read contrapositively. -/
theorem C9_termination (f : FAT) (fd : FatDisk) (start : Nat) :
    ((∃ fuel, (f.final_clusterF fd fuel start).isSome = true) ↔
      (start ≠ 0 ∧ ∃ n, chainStop (iterNext f fd (n + 1) start))) ∧
    ((∃ fuel, (f.get_all_cluster_ofF fd fuel start).isSome = true) ↔
      ∃ n, chainStop (iterNext f fd (n + 1) start)) ∧
    ((∃ fuel, (f.count_claster_numF fd fuel start).isSome = true) ↔
      (start = 0 ∨ ∃ n, countStop (iterNext f fd (n + 1) start))) := by
  refine ⟨⟨?_, ?_⟩, ⟨?_, ?_⟩, ⟨?_, ?_⟩⟩
  · rintro ⟨fuel, h⟩
    unfold FAT.final_clusterF at h
    by_cases h0 : start = 0
    · rw [if_pos h0] at h
      cases h
    · rw [if_neg h0] at h
      exact ⟨h0, finalLoop_isSome_imp f fd fuel start h⟩
  · rintro ⟨h0, n, h⟩
    refine ⟨n + 1, ?_⟩
    unfold FAT.final_clusterF
    rw [if_neg h0]
    exact finalLoop_isSome_of_stop f fd n start h
  · rintro ⟨fuel, h⟩
    exact chainF_isSome_imp f fd fuel start h
  · rintro ⟨n, h⟩
    exact ⟨n + 1, chainF_isSome_of_stop f fd n start h⟩
  · rintro ⟨fuel, h⟩
    by_cases h0 : start = 0
    · exact Or.inl h0
    · refine Or.inr ?_
      unfold FAT.count_claster_numF at h
      rw [if_neg h0] at h
      exact countLoop_isSome_imp f fd fuel start h
  · rintro (h0 | ⟨n, h⟩)
    · exact ⟨0, by unfold FAT.count_claster_numF; rw [if_pos h0]; rfl⟩
    · refine ⟨n + 1, ?_⟩
      unfold FAT.count_claster_numF
      by_cases h0 : start = 0
      · rw [if_pos h0]; rfl
      · rw [if_neg h0]
        exact countLoop_isSome_of_stop f fd n start h

/-- Concrete FAT store for the C8 counterexample: the entry of cluster 2
reads 0 and the entry of cluster 0 reads `END_CLUSTER`. -/
def fdC8 : FatDisk := fun s o => if s = 1 ∧ o = 0 then END_CLUSTER else 0

/-- Counterexample to C8 as stated: with `FAT[2] = 0` and
`FAT[0] = END_CLUSTER`, both walks from cluster 2 terminate, the chain
is `[2]` (length 1), but `count_claster_num` returns 2: its loop does
not stop on the next pointer 0, walks on to cluster 0 and counts it. -/
theorem C8_counterexample :
    FAT.get_all_cluster_ofF ⟨1, 100⟩ fdC8 2 2 = some [2] ∧
    FAT.count_claster_numF ⟨1, 100⟩ fdC8 2 2 = some 2 ∧
    ¬ ((2 : Nat) = ([(2 : Nat)] : List Nat).length) := by
  refine ⟨by decide, by decide, by decide⟩

lemma chain_count_agree (f : FAT) (fd : FatDisk) :
    ∀ n start,
      (∀ k, k < n → 0 < iterNext f fd (k + 1) start ∧
        iterNext f fd (k + 1) start ≤ 0xF000000) →
      END_CLUSTER ≤ iterNext f fd (n + 1) start →
      ∃ l, f.get_all_cluster_ofF fd (n + 1) start = some l ∧
        countLoop f fd (n + 1) start = some l.length := by
  intro n
  induction n with
  | zero =>
    intro start _ hend
    have hnx : END_CLUSTER ≤ f.get_next_cluster fd start := hend
    have hc1 : END_CLUSTER ≤ f.get_next_cluster fd start ∨
        f.get_next_cluster fd start = 0 := Or.inl hnx
    have hc2 : END_CLUSTER ≤ f.get_next_cluster fd start ∨
        0xF000000 < f.get_next_cluster fd start := Or.inl hnx
    refine ⟨[start &&& 0x0FFFFFFF], ?_, ?_⟩
    · unfold FAT.get_all_cluster_ofF
      rw [if_pos hc1]
    · unfold countLoop
      rw [if_pos hc2]
      rfl
  | succ n ih =>
    intro start hmid hend
    have h0 : 0 < f.get_next_cluster fd start ∧
        f.get_next_cluster fd start ≤ 0xF000000 := hmid 0 (Nat.succ_pos n)
    have hnotc : ¬ (END_CLUSTER ≤ f.get_next_cluster fd start ∨
        f.get_next_cluster fd start = 0) := by
      unfold END_CLUSTER
      omega
    have hnotk : ¬ (END_CLUSTER ≤ f.get_next_cluster fd start ∨
        0xF000000 < f.get_next_cluster fd start) := by
      unfold END_CLUSTER
      omega
    obtain ⟨l, hl, hc⟩ := ih (f.get_next_cluster fd start)
      (fun k hk => hmid (k + 1) (by omega)) hend
    refine ⟨(start &&& 0x0FFFFFFF) :: l, ?_, ?_⟩
    · unfold FAT.get_all_cluster_ofF
      rw [if_neg hnotc, hl]
      rfl
    · unfold countLoop
      rw [if_neg hnotk, hc]
      rfl

/-- C8 (amended): for every nonzero start cluster whose walk reaches an
end-of-chain value `≥ END_CLUSTER` after passing only through nonzero
next pointers `≤ 0xF000000` (every healthy chain does),
`count_claster_num` equals the length of the list that
`get_all_cluster_of` enumerates from the same cluster; and
`count_claster_num(0)` returns 0.  Without the nonzero/`≤ 0xF000000`
restriction on the intermediate next pointers the two walks stop under
different conditions and disagree (see the counterexample). -/
theorem C8_chain_count (f : FAT) (fd : FatDisk) (start n : Nat)
    (h0 : start ≠ 0)
    (hmid : ∀ k, k < n → 0 < iterNext f fd (k + 1) start ∧
      iterNext f fd (k + 1) start ≤ 0xF000000)
    (hend : END_CLUSTER ≤ iterNext f fd (n + 1) start) :
    (∃ l, f.get_all_cluster_ofF fd (n + 1) start = some l ∧
      f.count_claster_numF fd (n + 1) start = some l.length) ∧
    ∀ fuel, f.count_claster_numF fd fuel 0 = some 0 := by
  constructor
  · obtain ⟨l, hl, hc⟩ := chain_count_agree f fd n start hmid hend
    refine ⟨l, hl, ?_⟩
    unfold FAT.count_claster_numF
    rw [if_neg h0]
    exact hc
  · intro fuel
    rfl

/-- Concrete FAT store for the C8 witness: `FAT[2] = 3`,
`FAT[3] = END_CLUSTER`. -/
def fdC8w : FatDisk :=
  fun s o => if s = 1 ∧ o = 8 then 3 else if s = 1 ∧ o = 12 then END_CLUSTER else 0

/-- Witness for C8 (amended) on a two-cluster chain. -/
theorem C8_chain_count_witness :
    ((2 : Nat) ≠ 0 ∧
      (∀ k, k < 1 → 0 < iterNext ⟨1, 100⟩ fdC8w (k + 1) 2 ∧
        iterNext ⟨1, 100⟩ fdC8w (k + 1) 2 ≤ 0xF000000) ∧
      END_CLUSTER ≤ iterNext ⟨1, 100⟩ fdC8w (1 + 1) 2) ∧
    ((∃ l, FAT.get_all_cluster_ofF ⟨1, 100⟩ fdC8w (1 + 1) 2 = some l ∧
      FAT.count_claster_numF ⟨1, 100⟩ fdC8w (1 + 1) 2 = some l.length) ∧
    ∀ fuel, FAT.count_claster_numF ⟨1, 100⟩ fdC8w fuel 0 = some 0) :=
  ⟨⟨by decide, by decide, by decide⟩,
    C8_chain_count ⟨1, 100⟩ fdC8w 2 1 (by decide) (by decide) (by decide)⟩

/-! ## Block cache manager (fatfs/src/block_cache.rs)

A queue slot holds the sector id, the number of `Arc` references
currently alive for the slot (the manager's own reference included),
the dirty flag and the cached sector bytes.  `get_block_cache` returns
the new manager state together with the list of `(sector, bytes)`
write-backs performed by destructors of evicted entries, or none where
the source reaches its `Run out of BlockCache` failure (a pure model
has no state to roll back, which also renders the source's behaviour:
the unwinding mutation never happened). -/

structure BlockCacheEnt where
  block_id : Nat
  strong_count : Nat
  modified : Bool
  cache : List Nat

structure BlockCacheManager where
  start_sec : Nat
  limit : Nat
  queue : List BlockCacheEnt

/-- `Drop for BlockCache` / `BlockCache::sync` (block_cache.rs lines
72-85): write the buffer back iff the dirty flag is set. -/
def syncWrites (e : BlockCacheEnt) : List (Nat × List Nat) :=
  if e.modified then [(e.block_id, e.cache)] else []

/-- `BlockCache::new`: load the sector from the device; the fresh slot is
clean and referenced twice (the queue's clone and the returned one). -/
def loadEnt (dev : Nat → List Nat) (block_id : Nat) : BlockCacheEnt :=
  ⟨block_id, 2, false, dev block_id⟩

/-- The hit lookup `queue.iter().find(|pair| pair.0 == block_id)`. -/
def lookupCache (block_id : Nat) : List BlockCacheEnt → Option BlockCacheEnt
  | [] => none
  | a :: t => if a.block_id = block_id then some a else lookupCache block_id t

/-- The eviction scan `queue.iter().enumerate().find(|(_, pair)|
Arc::strong_count(&pair.1) == 1)`: first index (in insertion order)
whose slot has reference count exactly 1, with the slot itself. -/
def findRc1 : List BlockCacheEnt → Option (Nat × BlockCacheEnt)
  | [] => none
  | a :: t =>
    if a.strong_count = 1 then some (0, a)
    else (findRc1 t).map (fun p => (p.1 + 1, p.2))

/-- `BlockCacheManager::get_block_cache` (block_cache.rs lines 130-160):
on a hit return the shared slot (state unchanged); on a miss at
capacity, drain the first reference-count-1 slot (its destructor
flushes it) — or fail when there is none — then load the sector and
push the new slot at the tail. -/
def BlockCacheManager.get_block_cache (m : BlockCacheManager) (dev : Nat → List Nat)
    (block_id : Nat) : Option (BlockCacheManager × List (Nat × List Nat)) :=
  match lookupCache block_id m.queue with
  | some _ => some (m, [])
  | none =>
    if m.queue.length = m.limit then
      match findRc1 m.queue with
      | none => none
      | some (idx, e) =>
        some ({ m with queue := (m.queue.eraseIdx idx) ++ [loadEnt dev block_id] },
          syncWrites e)
    else
      some ({ m with queue := m.queue ++ [loadEnt dev block_id] }, [])

lemma lookupCache_none (block_id : Nat) :
    ∀ l, (∀ a ∈ l, a.block_id ≠ block_id) → lookupCache block_id l = none := by
  intro l
  induction l with
  | nil => intro _; rfl
  | cons a t ih =>
    intro h
    unfold lookupCache
    rw [if_neg (h a (List.mem_cons_self a t))]
    exact ih (fun x hx => h x (List.mem_cons_of_mem a hx))

lemma findRc1_first (e : BlockCacheEnt) (he : e.strong_count = 1) :
    ∀ pre post, (∀ x ∈ pre, x.strong_count ≠ 1) →
      findRc1 (pre ++ e :: post) = some (pre.length, e) := by
  intro pre
  induction pre with
  | nil =>
    intro post _
    show findRc1 (e :: post) = some (0, e)
    unfold findRc1
    rw [if_pos he]
  | cons a t ih =>
    intro post h
    have ha : a.strong_count ≠ 1 := h a (List.mem_cons_self a t)
    have ht := ih post (fun x hx => h x (List.mem_cons_of_mem a hx))
    show findRc1 (a :: (t ++ e :: post)) = some ((a :: t).length, e)
    unfold findRc1
    rw [if_neg ha, ht]
    rfl

lemma eraseIdx_middle (e : BlockCacheEnt) :
    ∀ pre post, (pre ++ e :: post).eraseIdx pre.length = pre ++ post := by
  intro pre
  induction pre with
  | nil => intro post; rfl
  | cons a t ih =>
    intro post
    show (a :: (t ++ e :: post)).eraseIdx (t.length + 1) = a :: (t ++ post)
    rw [List.eraseIdx_cons_succ, ih post]

lemma findRc1_none :
    ∀ l, (∀ a ∈ l, a.strong_count ≠ 1) → findRc1 l = none := by
  intro l
  induction l with
  | nil => intro _; rfl
  | cons a t ih =>
    intro h
    unfold findRc1
    rw [if_neg (h a (List.mem_cons_self a t)),
      ih (fun x hx => h x (List.mem_cons_of_mem a hx))]
    rfl

/-- C5: on a miss (`block_id` not in the queue) with the queue at
capacity, the first slot in insertion (FIFO) order whose reference
count is exactly 1 is drained — its destructor writes it back iff it is
dirty — and the freshly loaded slot is appended at the tail; when no
slot has reference count 1 the call fails (the source's hard failure),
leaving no state change. -/
theorem C5_cache_eviction (m : BlockCacheManager) (dev : Nat → List Nat) (block_id : Nat)
    (hmiss : ∀ a ∈ m.queue, a.block_id ≠ block_id)
    (hfull : m.queue.length = m.limit) :
    (∀ pre e post, m.queue = pre ++ e :: post → e.strong_count = 1 →
      (∀ x ∈ pre, x.strong_count ≠ 1) →
      m.get_block_cache dev block_id =
        some ({ m with queue := pre ++ post ++ [loadEnt dev block_id] }, syncWrites e)) ∧
    ((∀ a ∈ m.queue, a.strong_count ≠ 1) →
      m.get_block_cache dev block_id = none) := by
  have hlook := lookupCache_none block_id m.queue hmiss
  constructor
  · intro pre e post hq he hpre
    unfold BlockCacheManager.get_block_cache
    rw [hlook, if_pos hfull, hq, findRc1_first e he pre post hpre]
    show some ({ m with
      queue := (pre ++ e :: post).eraseIdx pre.length ++ [loadEnt dev block_id] },
      syncWrites e) = _
    rw [eraseIdx_middle e pre post]
  · intro hnone
    unfold BlockCacheManager.get_block_cache
    rw [hlook, if_pos hfull, findRc1_none m.queue hnone]

/-- Witness for C5 at a concrete two-slot manager. -/
theorem C5_cache_eviction_witness :
    ((∀ a ∈ [BlockCacheEnt.mk 5 3 false [], BlockCacheEnt.mk 6 1 true [9]], a.block_id ≠ 7) ∧
      ([BlockCacheEnt.mk 5 3 false [], BlockCacheEnt.mk 6 1 true [9]].length = 2)) ∧
    ((∀ pre e post,
      [BlockCacheEnt.mk 5 3 false [], BlockCacheEnt.mk 6 1 true [9]] = pre ++ e :: post →
      e.strong_count = 1 → (∀ x ∈ pre, x.strong_count ≠ 1) →
      BlockCacheManager.get_block_cache ⟨0, 2, [BlockCacheEnt.mk 5 3 false [], BlockCacheEnt.mk 6 1 true [9]]⟩ (fun _ => [1]) 7 =
        some ({ BlockCacheManager.mk 0 2 [BlockCacheEnt.mk 5 3 false [], BlockCacheEnt.mk 6 1 true [9]] with
          queue := pre ++ post ++ [loadEnt (fun _ => [1]) 7] }, syncWrites e)) ∧
    ((∀ a ∈ [BlockCacheEnt.mk 5 3 false [], BlockCacheEnt.mk 6 1 true [9]], a.strong_count ≠ 1) →
      BlockCacheManager.get_block_cache ⟨0, 2, [BlockCacheEnt.mk 5 3 false [], BlockCacheEnt.mk 6 1 true [9]]⟩ (fun _ => [1]) 7 = none)) :=
  ⟨⟨by decide, by decide⟩,
    C5_cache_eviction ⟨0, 2, [BlockCacheEnt.mk 5 3 false [], BlockCacheEnt.mk 6 1 true [9]]⟩
      (fun _ => [1]) 7 (by decide) (by decide)⟩

/-! ## VFile::remove (fatfs/src/vfs.rs lines 542-563)

The file-system state carries the FAT store, the directory-entry
stores and the cached root entry.  Directory sectors hold directory
entries and FAT sectors hold FAT entries, so the two are kept as
separate stores; `remove` touches one byte of each long entry
(`LongDirEntry::delete` writes `0xE5` into `ldir_ord`, the entry's
first byte), so the long-entry store records that byte. -/

structure VFileM where
  short_sector : Nat
  short_offset : Nat
  long_pos_vec : List (Nat × Nat)

structure FsState where
  fatd : FatDisk
  shorts : Nat → Nat → ShortDirEntry
  longOrds : Nat → Nat → Nat
  rootDirent : ShortDirEntry

/-- `VFile::read_short_dirent`: the synthetic root (sector 0) reads the
manager's cached root entry, any other position reads its sector. -/
def readShortDirent (vf : VFileM) (st : FsState) : ShortDirEntry :=
  if vf.short_sector = 0 then st.rootDirent
  else st.shorts vf.short_sector vf.short_offset

/-- `VFile::modify_short_dirent`: apply `g` to the short entry in place. -/
def modifyShortDirent (vf : VFileM) (g : ShortDirEntry → ShortDirEntry) (st : FsState) :
    FsState :=
  if vf.short_sector = 0 then { st with rootDirent := g st.rootDirent }
  else
    { st with shorts := fun s o =>
        if s = vf.short_sector ∧ o = vf.short_offset then g (st.shorts s o)
        else st.shorts s o }

/-- `VFile::modify_long_dirent` at one recorded position, applying
`LongDirEntry::delete` (write `0xE5` into the ordinal/first byte). -/
def deleteLongAt (p : Nat × Nat) (st : FsState) : FsState :=
  { st with longOrds := fun s o => if s = p.1 ∧ o = p.2 then 0xE5 else st.longOrds s o }

/-- Modelled from the spec: `FAT32Manager::dealloc_cluster`
(fat32_manager.rs is not under src/).  Spec §4.5: "dealloc(chain)
writes `FREE_CLUSTER` to every entry in the chain in both FAT copies;
updates FSInfo hints" — the hint update does not touch the FAT and is
not modelled. -/
def dealloc_cluster (f : FAT) (cls : List Nat) (fd : FatDisk) : FatDisk :=
  cls.foldl (fun d c => f.set_next_cluster c FREE_CLUSTER d) fd

/-- `VFile::remove`: read the first cluster, write `0xE5` into every
recorded long entry and into the short entry (`delete`), collect the
cluster chain, deallocate it, return the number of clusters collected.
The chain walk gets a fuel argument; none means it did not finish. -/
def VFile_remove (f : FAT) (vf : VFileM) (fuel : Nat) (st : FsState) :
    Option (FsState × Nat) :=
  match f.get_all_cluster_ofF
      (modifyShortDirent vf ShortDirEntry.delete
        (vf.long_pos_vec.foldl (fun s q => deleteLongAt q s) st)).fatd
      fuel (readShortDirent vf st).first_cluster with
  | none => none
  | some cls =>
    some ({ modifyShortDirent vf ShortDirEntry.delete
        (vf.long_pos_vec.foldl (fun s q => deleteLongAt q s) st) with
      fatd := dealloc_cluster f cls
        (modifyShortDirent vf ShortDirEntry.delete
          (vf.long_pos_vec.foldl (fun s q => deleteLongAt q s) st)).fatd },
      cls.length)

lemma deleteLong_foldl_fatd :
    ∀ (ps : List (Nat × Nat)) (st : FsState),
      (ps.foldl (fun s q => deleteLongAt q s) st).fatd = st.fatd := by
  intro ps
  induction ps with
  | nil => intro st; rfl
  | cons a t ih => intro st; exact ih (deleteLongAt a st)

lemma modifyShort_fatd (vf : VFileM) (g : ShortDirEntry → ShortDirEntry) (st : FsState) :
    (modifyShortDirent vf g st).fatd = st.fatd := by
  unfold modifyShortDirent
  by_cases h : vf.short_sector = 0
  · rw [if_pos h]
  · rw [if_neg h]

lemma deleteLong_foldl_readShort (vf : VFileM) :
    ∀ (ps : List (Nat × Nat)) (st : FsState),
      readShortDirent vf (ps.foldl (fun s q => deleteLongAt q s) st) =
        readShortDirent vf st := by
  intro ps
  induction ps with
  | nil => intro st; rfl
  | cons a t ih =>
    intro st
    rw [List.foldl_cons, ih (deleteLongAt a st)]
    unfold readShortDirent deleteLongAt
    by_cases h : vf.short_sector = 0
    · rw [if_pos h]
    · rw [if_neg h]

lemma readShort_modifyShort (vf : VFileM) (g : ShortDirEntry → ShortDirEntry) (st : FsState) :
    readShortDirent vf (modifyShortDirent vf g st) = g (readShortDirent vf st) := by
  unfold readShortDirent modifyShortDirent
  by_cases h : vf.short_sector = 0
  · simp only [if_pos h]
  · simp only [if_neg h]
    simp

lemma modifyShort_longOrds (vf : VFileM) (g : ShortDirEntry → ShortDirEntry) (st : FsState) :
    (modifyShortDirent vf g st).longOrds = st.longOrds := by
  unfold modifyShortDirent
  by_cases h : vf.short_sector = 0
  · rw [if_pos h]
  · rw [if_neg h]

lemma deleteLong_foldl_pres (p : Nat × Nat) :
    ∀ (ps : List (Nat × Nat)) (st : FsState),
      st.longOrds p.1 p.2 = 0xE5 →
      (ps.foldl (fun s q => deleteLongAt q s) st).longOrds p.1 p.2 = 0xE5 := by
  intro ps
  induction ps with
  | nil => intro st h; exact h
  | cons a t ih =>
    intro st h
    refine ih (deleteLongAt a st) ?_
    show (if p.1 = a.1 ∧ p.2 = a.2 then 0xE5 else st.longOrds p.1 p.2) = 0xE5
    by_cases hp : p.1 = a.1 ∧ p.2 = a.2
    · rw [if_pos hp]
    · rw [if_neg hp]
      exact h

lemma deleteLong_foldl_sets :
    ∀ (ps : List (Nat × Nat)) (st : FsState) (p : Nat × Nat), p ∈ ps →
      (ps.foldl (fun s q => deleteLongAt q s) st).longOrds p.1 p.2 = 0xE5 := by
  intro ps
  induction ps with
  | nil => intro st p hp; cases hp
  | cons a t ih =>
    intro st p hp
    rcases List.mem_cons.mp hp with h | h
    · subst h
      refine deleteLong_foldl_pres p t (deleteLongAt p st) ?_
      show (if p.1 = p.1 ∧ p.2 = p.2 then 0xE5 else st.longOrds p.1 p.2) = 0xE5
      have hc : p.1 = p.1 ∧ p.2 = p.2 := ⟨rfl, rfl⟩
      rw [if_pos hc]
    · exact ih (deleteLongAt a st) p h

lemma updFat_read (fd : FatDisk) (sec off v s o : Nat) :
    updFat fd sec off v s o = v ∨ updFat fd sec off v s o = fd s o := by
  unfold updFat
  by_cases h : s = sec ∧ o = off
  · rw [if_pos h]
    exact Or.inl rfl
  · rw [if_neg h]
    exact Or.inr rfl

lemma set_next_read (f : FAT) (d : FatDisk) (cw v s o : Nat) :
    f.set_next_cluster cw v d s o = v ∨ f.set_next_cluster cw v d s o = d s o := by
  show updFat (updFat d (f.fat1_sector + cw * 4 / 512) (4 * cw % 512) v)
      (f.fat2_sector + cw * 4 / 512) (4 * cw % 512) v s o = v ∨ _ = d s o
  rcases updFat_read (updFat d (f.fat1_sector + cw * 4 / 512) (4 * cw % 512) v)
      (f.fat2_sector + cw * 4 / 512) (4 * cw % 512) v s o with h | h
  · exact Or.inl h
  · rcases updFat_read d (f.fat1_sector + cw * 4 / 512) (4 * cw % 512) v s o with h2 | h2
    · exact Or.inl (h.trans h2)
    · exact Or.inr (h.trans h2)

lemma set_next_free_keeps (f : FAT) (d : FatDisk) (c cw : Nat)
    (h1 : fat1Entry f d c = FREE_CLUSTER) (h2 : fat2Entry f d c = FREE_CLUSTER) :
    fat1Entry f (f.set_next_cluster cw FREE_CLUSTER d) c = FREE_CLUSTER ∧
    fat2Entry f (f.set_next_cluster cw FREE_CLUSTER d) c = FREE_CLUSTER := by
  constructor
  · rcases set_next_read f d cw FREE_CLUSTER (f.fat1_sector + c * 4 / 512) (4 * c % 512)
      with h | h
    · exact h
    · exact h.trans h1
  · rcases set_next_read f d cw FREE_CLUSTER (f.fat2_sector + c * 4 / 512) (4 * c % 512)
      with h | h
    · exact h
    · exact h.trans h2

lemma set_next_free_self (f : FAT) (d : FatDisk) (c : Nat) :
    fat1Entry f (f.set_next_cluster c FREE_CLUSTER d) c = FREE_CLUSTER ∧
    fat2Entry f (f.set_next_cluster c FREE_CLUSTER d) c = FREE_CLUSTER := by
  constructor
  · show updFat (updFat d (f.fat1_sector + c * 4 / 512) (4 * c % 512) FREE_CLUSTER)
        (f.fat2_sector + c * 4 / 512) (4 * c % 512) FREE_CLUSTER
        (f.fat1_sector + c * 4 / 512) (4 * c % 512) = FREE_CLUSTER
    by_cases hs : f.fat1_sector + c * 4 / 512 = f.fat2_sector + c * 4 / 512
    · have hc : f.fat1_sector + c * 4 / 512 = f.fat2_sector + c * 4 / 512 ∧
          4 * c % 512 = 4 * c % 512 := ⟨hs, rfl⟩
      unfold updFat
      rw [if_pos hc]
    · have hc : ¬ (f.fat1_sector + c * 4 / 512 = f.fat2_sector + c * 4 / 512 ∧
          4 * c % 512 = 4 * c % 512) := fun hh => hs hh.1
      have hc2 : f.fat1_sector + c * 4 / 512 = f.fat1_sector + c * 4 / 512 ∧
          4 * c % 512 = 4 * c % 512 := ⟨rfl, rfl⟩
      unfold updFat
      rw [if_neg hc, if_pos hc2]
  · show updFat (updFat d (f.fat1_sector + c * 4 / 512) (4 * c % 512) FREE_CLUSTER)
        (f.fat2_sector + c * 4 / 512) (4 * c % 512) FREE_CLUSTER
        (f.fat2_sector + c * 4 / 512) (4 * c % 512) = FREE_CLUSTER
    have hc : f.fat2_sector + c * 4 / 512 = f.fat2_sector + c * 4 / 512 ∧
        4 * c % 512 = 4 * c % 512 := ⟨rfl, rfl⟩
    unfold updFat
    rw [if_pos hc]

lemma dealloc_keeps_free (f : FAT) :
    ∀ (cls : List Nat) (fd : FatDisk) (c : Nat),
      fat1Entry f fd c = FREE_CLUSTER → fat2Entry f fd c = FREE_CLUSTER →
      fat1Entry f (dealloc_cluster f cls fd) c = FREE_CLUSTER ∧
      fat2Entry f (dealloc_cluster f cls fd) c = FREE_CLUSTER := by
  intro cls
  induction cls with
  | nil => intro fd c h1 h2; exact ⟨h1, h2⟩
  | cons a t ih =>
    intro fd c h1 h2
    obtain ⟨h1a, h2a⟩ := set_next_free_keeps f fd c a h1 h2
    exact ih (f.set_next_cluster a FREE_CLUSTER fd) c h1a h2a

lemma dealloc_frees (f : FAT) :
    ∀ (cls : List Nat) (fd : FatDisk) (c : Nat), c ∈ cls →
      fat1Entry f (dealloc_cluster f cls fd) c = FREE_CLUSTER ∧
      fat2Entry f (dealloc_cluster f cls fd) c = FREE_CLUSTER := by
  intro cls
  induction cls with
  | nil => intro fd c hc; cases hc
  | cons a t ih =>
    intro fd c hc
    rcases List.mem_cons.mp hc with h | h
    · subst h
      obtain ⟨h1, h2⟩ := set_next_free_self f fd c
      exact dealloc_keeps_free f t (f.set_next_cluster c FREE_CLUSTER fd) c h1 h2
    · exact ih (f.set_next_cluster a FREE_CLUSTER fd) c h

lemma chainF_length_pos (f : FAT) (fd : FatDisk) :
    ∀ fuel cur l, f.get_all_cluster_ofF fd fuel cur = some l → 0 < l.length := by
  intro fuel
  induction fuel with
  | zero => intro cur l h; cases h
  | succ fuel ih =>
    intro cur l h
    unfold FAT.get_all_cluster_ofF at h
    by_cases hs : END_CLUSTER ≤ f.get_next_cluster fd cur ∨ f.get_next_cluster fd cur = 0
    · rw [if_pos hs] at h
      cases h
      exact Nat.succ_pos 0
    · rw [if_neg hs] at h
      cases hx : f.get_all_cluster_ofF fd fuel (f.get_next_cluster fd cur) with
      | none => rw [hx] at h; cases h
      | some l2 =>
        rw [hx] at h
        cases h
        exact Nat.succ_pos _

/-- C6 (amended): `remove()` writes `0xE5` into the first byte of every
recorded LFN fragment and of the short entry (also zeroing the short
entry's size and first cluster), deallocates every cluster that
`get_all_cluster_of(first_cluster)` enumerates, and returns the length
of that enumeration.  That length is never 0: the walk unconditionally
records its start value, so a file whose `first_cluster` is 0 yields a
count of at least 1 (the enumeration `[0]`), not 0. -/
theorem C6_remove (f : FAT) (vf : VFileM) (fuel : Nat) (st : FsState)
    (hname : (readShortDirent vf st).dir_name ≠ []) :
    ∀ st' n, VFile_remove f vf fuel st = some (st', n) →
      (∀ p ∈ vf.long_pos_vec, st'.longOrds p.1 p.2 = 0xE5) ∧
      (readShortDirent vf st').dir_name.getD 0 0 = 0xE5 ∧
      (readShortDirent vf st').dir_file_size = 0 ∧
      (readShortDirent vf st').first_cluster = 0 ∧
      ∃ cls, f.get_all_cluster_ofF st.fatd fuel (readShortDirent vf st).first_cluster =
          some cls ∧
        n = cls.length ∧ 0 < n ∧
        ∀ c ∈ cls, fat1Entry f st'.fatd c = FREE_CLUSTER ∧
          fat2Entry f st'.fatd c = FREE_CLUSTER := by
  intro st' n hrun
  unfold VFile_remove at hrun
  rw [modifyShort_fatd, deleteLong_foldl_fatd] at hrun
  cases hx : f.get_all_cluster_ofF st.fatd fuel (readShortDirent vf st).first_cluster with
  | none => rw [hx] at hrun; cases hrun
  | some cls =>
    rw [hx] at hrun
    cases hrun
    refine ⟨?_, ?_, ?_, ?_, cls, rfl, rfl, chainF_length_pos f st.fatd fuel _ cls hx, ?_⟩
    · intro p hp
      show (modifyShortDirent vf ShortDirEntry.delete
        (vf.long_pos_vec.foldl (fun s q => deleteLongAt q s) st)).longOrds p.1 p.2 = 0xE5
      rw [modifyShort_longOrds]
      exact deleteLong_foldl_sets vf.long_pos_vec st p hp
    · show (readShortDirent vf (modifyShortDirent vf ShortDirEntry.delete
        (vf.long_pos_vec.foldl (fun s q => deleteLongAt q s) st))).dir_name.getD 0 0 = 0xE5
      rw [readShort_modifyShort, deleteLong_foldl_readShort]
      unfold ShortDirEntry.delete
      cases he : (readShortDirent vf st).dir_name with
      | nil => exact absurd he hname
      | cons b bs => rfl
    · show (readShortDirent vf (modifyShortDirent vf ShortDirEntry.delete
        (vf.long_pos_vec.foldl (fun s q => deleteLongAt q s) st))).dir_file_size = 0
      rw [readShort_modifyShort, deleteLong_foldl_readShort]
      rfl
    · show (readShortDirent vf (modifyShortDirent vf ShortDirEntry.delete
        (vf.long_pos_vec.foldl (fun s q => deleteLongAt q s) st))).first_cluster = 0
      rw [readShort_modifyShort, deleteLong_foldl_readShort]
      simp [ShortDirEntry.delete, ShortDirEntry.clear, ShortDirEntry.set_first_cluster,
        ShortDirEntry.first_cluster, Nat.zero_and, Nat.zero_shiftRight]
    · intro c hc
      exact dealloc_frees f cls _ c hc

/-- The all-zero file-system state used by the C6 counterexample and
witness: zero FAT store, blank directory entries everywhere. -/
def stC6 : FsState :=
  ⟨fun _ _ => 0, fun _ _ => ShortDirEntry.new, fun _ _ => 0, ShortDirEntry.new⟩

/-- Counterexample to C6 as stated: removing a file whose
`first_cluster` is 0 (no clusters allocated) returns 1, not 0 —
`get_all_cluster_of(0)` records the start value 0 before looking at any
next pointer, so the chain it hands back is `[0]` of length 1. -/
theorem C6_counterexample :
    (VFile_remove ⟨1, 2⟩ ⟨5, 0, []⟩ 1 stC6).map (fun r => r.2) = some 1 ∧
    (1 : Nat) ≠ 0 :=
  ⟨by decide, by decide⟩

/-- Witness for C6 (amended) at the same concrete state. -/
theorem C6_remove_witness :
    ((readShortDirent ⟨5, 0, []⟩ stC6).dir_name ≠ []) ∧
    (∀ st' n, VFile_remove ⟨1, 2⟩ ⟨5, 0, []⟩ 1 stC6 = some (st', n) →
      (∀ p ∈ ([] : List (Nat × Nat)), st'.longOrds p.1 p.2 = 0xE5) ∧
      (readShortDirent ⟨5, 0, []⟩ st').dir_name.getD 0 0 = 0xE5 ∧
      (readShortDirent ⟨5, 0, []⟩ st').dir_file_size = 0 ∧
      (readShortDirent ⟨5, 0, []⟩ st').first_cluster = 0 ∧
      ∃ cls, FAT.get_all_cluster_ofF ⟨1, 2⟩ stC6.fatd 1
          (readShortDirent ⟨5, 0, []⟩ stC6).first_cluster = some cls ∧
        n = cls.length ∧ 0 < n ∧
        ∀ c ∈ cls, fat1Entry ⟨1, 2⟩ st'.fatd c = FREE_CLUSTER ∧
          fat2Entry ⟨1, 2⟩ st'.fatd c = FREE_CLUSTER) :=
  ⟨by decide, C6_remove ⟨1, 2⟩ ⟨5, 0, []⟩ 1 stC6 (by decide)⟩

/-! ## Long-name lookup (fatfs/src/vfs.rs, `VFile::find_long_name`)

A directory's data stream is the list of its 32-byte entries (the
source reads it 32 bytes at a time at offsets `0, 32, 64, ...` through
`ShortDirEntry::read_at`); an entry is its byte list.  Reading past the
end of the allocated clusters gives `read_size != DIRENT_SZ`, modelled
as a failed `List.get?`.  The query arrives already split into
13-character fragments (`long_name_split` lives in the absent
fat32_manager.rs; the lookup logic under test only consumes the split
result).  The result records the entry index where the topmost fragment
of a successful match sits (the source then converts indices to
`(sector, offset)` positions and builds the `VFile`); `badShort` is the
source's branch that aborts on an invalid short entry or checksum
mismatch after a full name match. -/

def entByte (e : List Nat) (i : Nat) : Nat := e.getD i 0

/-- `LongDirEntry::order`: the ordinal byte (entry byte 0). -/
def ldirOrd (e : List Nat) : Nat := entByte e 0

/-- `LongDirEntry::attr` / `ShortDirEntry::attr`: entry byte 11. -/
def ldirAttr (e : List Nat) : Nat := entByte e 11

/-- `LongDirEntry::check_sum`: the recorded checksum (entry byte 13). -/
def ldirChksum (e : List Nat) : Nat := entByte e 13

/-- `LongDirEntry::get_name_raw`: the 13 characters of the fragment,
reading only the even (UCS-2 low) bytes of the three name regions
(bytes 1-10, 14-25, 28-31). -/
def ldirNameRaw (e : List Nat) : List Nat :=
  [entByte e 1, entByte e 3, entByte e 5, entByte e 7, entByte e 9,
   entByte e 14, entByte e 16, entByte e 18, entByte e 20, entByte e 22, entByte e 24,
   entByte e 28, entByte e 30]

/-- `ShortDirEntry::is_valid` on the raw entry bytes: first byte is not
`0xE5`. -/
def sdirIsValid (e : List Nat) : Prop := entByte e 0 ≠ 0xE5

instance (e : List Nat) : Decidable (sdirIsValid e) := by unfold sdirIsValid; infer_instance

/-- `ShortDirEntry::checksum` computed over the raw entry bytes: the
checksum fold over bytes 0..10 (8 name bytes then 3 extension bytes,
which are contiguous in the entry). -/
def sdirChecksumBytes (e : List Nat) : Nat :=
  ((List.range 11).map (entByte e)).foldl checksumStep 0

inductive FragChk where
  | ok
  | mismatch
  | readFail

/-- The inner loop `for i in 1..order`: read the fragment at entry
`j + i`, fail the whole lookup on a short read, clear `is_match` and
stop on a name or attribute mismatch. -/
def checkFrags (q : List (List Nat)) (dir : List (List Nat)) (j : Nat) : Nat → Nat → FragChk
  | _, 0 => FragChk.ok
  | i, rest + 1 =>
    match dir.get? (j + i) with
    | none => FragChk.readFail
    | some e =>
      if ldirNameRaw e ≠ q.getD (q.length - 1 - i) [] ∨ ldirAttr e ≠ ATTR_LONG_NAME then
        FragChk.mismatch
      else checkFrags q dir j (i + 1) rest

inductive LongLookup where
  | foundAt (j : Nat)
  | notFound
  | badShort
deriving DecidableEq

/-- `VFile::find_long_name`, from entry index `j` on (vfs.rs lines
112-208).  An entry whose first byte is 0 ends the scan; an entry whose
attribute is `ATTR_LONG_NAME` and whose 13-character name equals the
query's last fragment is ordinal-checked: a cleared `0x40` bit, the
value `0xE5`, or an ordinal count different from the query's fragment
count resumes the scan at the next entry; otherwise the preceding
fragments are matched in reverse order and the following short entry's
checksum is compared against the last-read fragment's recorded one. -/
def findLongFrom (q : List (List Nat)) (dir : List (List Nat)) : Nat → Nat → Option LongLookup
  | 0, _ => none
  | fuel + 1, j =>
    match dir.get? j with
    | none => some LongLookup.notFound
    | some e =>
      if ldirOrd e = 0 then some LongLookup.notFound
      else if ldirAttr e = ATTR_LONG_NAME ∧ ldirNameRaw e = q.getD (q.length - 1) [] then
        if ldirOrd e &&& 0x40 = 0 ∨ ldirOrd e = 0xE5 then findLongFrom q dir fuel (j + 1)
        else if ldirOrd e ^^^ 0x40 ≠ q.length then findLongFrom q dir fuel (j + 1)
        else
          match checkFrags q dir j 1 ((ldirOrd e ^^^ 0x40) - 1) with
          | FragChk.readFail => some LongLookup.notFound
          | FragChk.mismatch => findLongFrom q dir fuel (j + 1)
          | FragChk.ok =>
            match dir.get? (j + q.length) with
            | none => some LongLookup.notFound
            | some se =>
              if sdirIsValid se ∧
                  ldirChksum (dir.getD (j + q.length - 1) []) = sdirChecksumBytes se then
                some (LongLookup.foundAt j)
              else some LongLookup.badShort
      else findLongFrom q dir fuel (j + 1)

/-- C7 (amended): during long-name lookup, a directory entry with a
NONZERO ordinal byte whose attribute is `ATTR_LONG_NAME` and whose
13-character name matches the query's last fragment, but whose ordinal
byte either lacks the `0x40` final bit or — after clearing `0x40` —
differs from the query's fragment count, is never returned as a match:
the scan resumes at the next 32-byte entry (the result from `j` is the
result of scanning from `j + 1`).  An ordinal byte of `0x00` is the
end-of-directory mark: the scan stops there instead of resuming (see
the counterexample). -/
theorem C7_lfn_skip (q dir : List (List Nat)) (fuel j : Nat) (e : List Nat)
    (hread : dir.get? j = some e)
    (hord : ldirOrd e ≠ 0)
    (hattr : ldirAttr e = ATTR_LONG_NAME)
    (hname : ldirNameRaw e = q.getD (q.length - 1) [])
    (hbad : ldirOrd e &&& 0x40 = 0 ∨ ldirOrd e ^^^ 0x40 ≠ q.length) :
    findLongFrom q dir (fuel + 1) j = findLongFrom q dir fuel (j + 1) := by
  have hmatch : ldirAttr e = ATTR_LONG_NAME ∧ ldirNameRaw e = q.getD (q.length - 1) [] :=
    ⟨hattr, hname⟩
  rcases hbad with hb | hb
  · have hc : ldirOrd e &&& 0x40 = 0 ∨ ldirOrd e = 0xE5 := Or.inl hb
    conv_lhs => rw [findLongFrom]
    simp only [hread, if_neg hord, if_pos hmatch, if_pos hc]
  · by_cases hc : ldirOrd e &&& 0x40 = 0 ∨ ldirOrd e = 0xE5
    · conv_lhs => rw [findLongFrom]
      simp only [hread, if_neg hord, if_pos hmatch, if_pos hc]
    · conv_lhs => rw [findLongFrom]
      simp only [hread, if_neg hord, if_pos hmatch, if_neg hc, if_pos hb]

/-- The query of the C7 counterexample: one all-zero 13-byte fragment. -/
def qC7 : List (List Nat) := [List.replicate 13 0]

/-- A stale entry: attribute `ATTR_LONG_NAME`, name matching the query,
ordinal byte 0 (lacks the `0x40` bit). -/
def eC7zero : List Nat :=
  [0, 0, 0, 0, 0, 0, 0, 0, 0, 0, 0, 0x0F, 0, 0, 0, 0,
   0, 0, 0, 0, 0, 0, 0, 0, 0, 0, 0, 0, 0, 0, 0, 0]

/-- A well-formed final fragment for the same query (ordinal `0x41`). -/
def eC7frag : List Nat :=
  [0x41, 0, 0, 0, 0, 0, 0, 0, 0, 0, 0, 0x0F, 0, 0, 0, 0,
   0, 0, 0, 0, 0, 0, 0, 0, 0, 0, 0, 0, 0, 0, 0, 0]

/-- The short entry following it (valid, checksum 0 over 11 zero bytes). -/
def eC7short : List Nat := List.replicate 32 0

/-- The directory of the C7 counterexample: the stale zero-ordinal entry
sits in front of a perfectly matchable LFN pair. -/
def dirC7 : List (List Nat) := [eC7zero, eC7frag, eC7short]

/-- Counterexample to C7 as stated: `eC7zero` has attribute
`ATTR_LONG_NAME`, its 13-character name matches the query's last
fragment, and its ordinal byte lacks the `0x40` bit — yet scanning does
not resume past it: the zero first byte is taken as end-of-directory
and the lookup stops with no match, missing the valid match that
starts one entry later. -/
theorem C7_counterexample :
    findLongFrom qC7 dirC7 3 0 = some LongLookup.notFound ∧
    findLongFrom qC7 dirC7 2 1 = some (LongLookup.foundAt 1) ∧
    ldirAttr eC7zero = ATTR_LONG_NAME ∧
    ldirNameRaw eC7zero = qC7.getD (qC7.length - 1) [] ∧
    ldirOrd eC7zero &&& 0x40 = 0 := by
  refine ⟨by decide, by decide, by decide, by decide, by decide⟩

/-- A stale entry with nonzero ordinal `0x01` (final bit `0x40` clear). -/
def eC7bad : List Nat :=
  [0x01, 0, 0, 0, 0, 0, 0, 0, 0, 0, 0, 0x0F, 0, 0, 0, 0,
   0, 0, 0, 0, 0, 0, 0, 0, 0, 0, 0, 0, 0, 0, 0, 0]

/-- Directory for the C7 witness. -/
def dirC7w : List (List Nat) := [eC7bad, eC7frag, eC7short]

/-- Witness for C7 (amended) at a concrete stale entry. -/
theorem C7_lfn_skip_witness :
    (dirC7w.get? 0 = some eC7bad ∧
      ldirOrd eC7bad ≠ 0 ∧
      ldirAttr eC7bad = ATTR_LONG_NAME ∧
      ldirNameRaw eC7bad = qC7.getD (qC7.length - 1) [] ∧
      (ldirOrd eC7bad &&& 0x40 = 0 ∨ ldirOrd eC7bad ^^^ 0x40 ≠ qC7.length)) ∧
    findLongFrom qC7 dirC7w (1 + 1) 0 = findLongFrom qC7 dirC7w 1 (0 + 1) :=
  ⟨⟨by decide, by decide, by decide, by decide, by decide⟩,
    C7_lfn_skip qC7 dirC7w 1 0 eC7bad (by decide) (by decide) (by decide) (by decide)
      (by decide)⟩

/-! ## increase_size and the write-size postcondition
(fatfs/src/vfs.rs, `VFile::increase_size` lines 285-337 and
`VFile::write_at` lines 480-486)

Only the short-entry metadata is tracked: `increase_size` changes the
FAT (chain extension) and the short entry (size, first cluster), and
the recorded size is what C10 is about.  `cluster_num_needed` and
`alloc_cluster` live in the absent fat32_manager.rs: the former is
modelled from the spec, the latter is a parameter (its success depends
on the free-cluster state); the resulting size is the same in every
branch that succeeds, so the claim does not depend on either.  The FAT
linking of the freshly allocated chain (`final_cluster` /
`set_next_cluster`) touches no short-entry field and is elided here. -/

structure FileMeta where
  dir_file_size : Nat
  first_cluster : Nat
  is_dir : Bool
deriving DecidableEq

/-- Modelled from the spec: `FAT32Manager::cluster_num_needed`
(fat32_manager.rs is not under src/).  Spec §4.5: the number of
additional clusters required to grow a file from `old_size` to
`new_size`, accounting for `first_cluster == 0` meaning no clusters
exist yet; `bpc` is bytes-per-cluster. -/
def cluster_num_needed (bpc old_size new_size : Nat) (first_cluster : Nat) : Nat :=
  (new_size + bpc - 1) / bpc - (if first_cluster = 0 then 0 else (old_size + bpc - 1) / bpc)

/-- `VFile::increase_size(new_size)`: no-op when `new_size <= old_size`;
with nothing to allocate, a plain file records the new size; otherwise
allocate (`alloc` returns the first fresh cluster, or none when the
disk is full — the source's out-of-cluster failure), adopt the fresh
cluster when the file had none, and record the new size. -/
def increase_size (bpc : Nat) (alloc : Nat → Option Nat) (m : FileMeta) (new_size : Nat) :
    Option FileMeta :=
  if new_size ≤ m.dir_file_size then some m
  else
    if cluster_num_needed bpc m.dir_file_size new_size m.first_cluster = 0 then
      if !m.is_dir then some { m with dir_file_size := new_size } else some m
    else
      match alloc (cluster_num_needed bpc m.dir_file_size new_size m.first_cluster) with
      | none => none
      | some cluster =>
        if m.first_cluster = 0 then
          some { m with first_cluster := cluster, dir_file_size := new_size }
        else
          some { m with dir_file_size := new_size }

/-- `VFile::write_at`'s first step, on the metadata:
`increase_size((offset + buf.len()) as u32)` — the cast truncates the
64-bit sum to 32 bits. -/
def write_at_size (bpc : Nat) (alloc : Nat → Option Nat) (m : FileMeta)
    (offset bufLen : Nat) : Option FileMeta :=
  increase_size bpc alloc m ((offset + bufLen) % 4294967296)

/-- Counterexample to C10 as stated: `write_at` computes the new size as
`(offset + buf.len()) as u32`, truncating mod `2^32`.  An empty write
at offset `2^32` truncates to 0, `increase_size(0)` is a no-op, and the
recorded size stays 1 instead of the claimed
`max(old, offset + len) = 2^32`. -/
theorem C10_counterexample :
    write_at_size 4096 (fun _ => some 3) ⟨1, 2, false⟩ 4294967296 0 =
      some ⟨1, 2, false⟩ ∧
    ¬ ((1 : Nat) = max 1 (4294967296 + 0)) := by
  refine ⟨by decide, by decide⟩

/-- C10 (amended): for every non-directory file, when
`write_at(offset, buf)`'s size step succeeds (cluster allocation did
not fail), the recorded file size becomes
`max(old_size, (offset + len(buf)) mod 2^32)` — the sum is truncated to
32 bits by the source's `as u32` cast before being compared and stored.
In particular the recorded size never decreases, and an empty write at
an offset beyond the end (offset < 2^32) extends the size to the
offset. -/
theorem C10_write_size (bpc : Nat) (alloc : Nat → Option Nat) (m : FileMeta)
    (offset bufLen : Nat) (m2 : FileMeta)
    (hdir : m.is_dir = false)
    (hrun : write_at_size bpc alloc m offset bufLen = some m2) :
    m2.dir_file_size = max m.dir_file_size ((offset + bufLen) % 4294967296) := by
  unfold write_at_size increase_size at hrun
  by_cases hle : (offset + bufLen) % 4294967296 ≤ m.dir_file_size
  · rw [if_pos hle] at hrun
    cases hrun
    exact (Nat.max_eq_left hle).symm
  · rw [if_neg hle] at hrun
    have hmax : max m.dir_file_size ((offset + bufLen) % 4294967296) =
        (offset + bufLen) % 4294967296 := Nat.max_eq_right (by omega)
    rw [hmax]
    by_cases hz : cluster_num_needed bpc m.dir_file_size
        ((offset + bufLen) % 4294967296) m.first_cluster = 0
    · rw [if_pos hz, hdir] at hrun
      cases hrun
      rfl
    · rw [if_neg hz] at hrun
      cases halloc : alloc (cluster_num_needed bpc m.dir_file_size
          ((offset + bufLen) % 4294967296) m.first_cluster) with
      | none => rw [halloc] at hrun; cases hrun
      | some cluster =>
        rw [halloc] at hrun
        by_cases hfc : m.first_cluster = 0
        · simp only [hfc, reduceIte] at hrun
          cases hrun
          rfl
        · simp only [if_neg hfc] at hrun
          cases hrun
          rfl

/-- Witness for C10 (amended): a 2-byte write at offset 3 into an empty
file whose allocation succeeds records size 5. -/
theorem C10_write_size_witness :
    ((FileMeta.mk 0 0 false).is_dir = false ∧
      write_at_size 4096 (fun _ => some 2) ⟨0, 0, false⟩ 3 2 = some ⟨5, 2, false⟩) ∧
    (FileMeta.mk 5 2 false).dir_file_size = max (FileMeta.mk 0 0 false).dir_file_size
      ((3 + 2) % 4294967296) :=
  ⟨⟨rfl, by decide⟩,
    C10_write_size 4096 (fun _ => some 2) ⟨0, 0, false⟩ 3 2 ⟨5, 2, false⟩ rfl (by decide)⟩

/-! ## ShortDirEntry::read_at / write_at (fatfs/src/layout.rs lines
337-456)

The payload sectors are a byte-addressed store `Disk` (sector →
in-sector offset → byte); sectors are 512 bytes (`BLOCK_SIZE` in
lib.rs, also hard-coded in `FAT::calculate_pos`).  During these two
operations the FAT is only read (`get_next_cluster`) and only data
sectors are written; in a well-formed volume the FAT region and the
data region are disjoint sector ranges, so the FAT store `FatDisk` and
the payload store `Disk` are kept separate.  The buffer cursor pair
(`write_size`/`read_size`, `rest`) of the source is carried as the
not-yet-copied suffix `rem` of the buffer (the source maintains
`rest = buf.len() - write_size` throughout), together with the
accumulated output on reads. -/

def Disk : Type := Nat → Nat → Nat

structure Geom where
  sectors_per_cluster : Nat
  data_start_sector : Nat

/-- `bytes_per_cluster = bytes_per_sector * sectors_per_cluster` with
512-byte sectors. -/
def Geom.bytes_per_cluster (g : Geom) : Nat := 512 * g.sectors_per_cluster

/-- Modelled from the spec: `FAT32Manager::first_sector_of_cluster`
(fat32_manager.rs is not under src/).  Spec §4.5:
`first_sector_of(cluster) = data_sector_start + (cluster - 2) * spc`. -/
def Geom.first_sector_of_cluster (g : Geom) (cluster : Nat) : Nat :=
  g.data_start_sector + (cluster - 2) * g.sectors_per_cluster

/-- One in-sector byte-range copy into the disk (the
`dst.copy_from_slice(src)` inside `modify`): bytes `[off, off + |bytes|)`
of sector `s` now hold `bytes`. -/
def writeRange (d : Disk) (s off : Nat) (bytes : List Nat) : Disk :=
  fun s2 o =>
    if s2 = s ∧ off ≤ o ∧ o < off + bytes.length then bytes.getD (o - off) 0 else d s2 o

/-- One in-sector byte-range read (the `copy_from_slice` inside `read`). -/
def readRange (d : Disk) (s off len : Nat) : List Nat :=
  (List.range len).map (fun k => d s (off + k))

/-- The sector loop `for i in nth_sect..sectors_per_cluster` of
`write_at`: `k` counts the remaining sectors (`spc - i`), `s` is the
absolute sector `sect + i`, `off` the in-sector offset (0 from the
second iteration on), `rem` the bytes still to write; each iteration
copies `len = rest.min(512 - offset)` bytes. -/
def writeInner : Nat → Disk → Nat → Nat → List Nat → Disk × List Nat
  | 0, d, _, _, rem => (d, rem)
  | k + 1, d, s, off, rem =>
    if rem = [] then (d, rem)
    else
      writeInner k (writeRange d s off (rem.take (min rem.length (512 - off)))) (s + 1) 0
        (rem.drop (min rem.length (512 - off)))

/-- The sector loop of `read_at`: `r` counts the bytes still wanted,
`acc` the bytes delivered so far. -/
def readInner (d : Disk) : Nat → Nat → Nat → Nat → List Nat → List Nat × Nat
  | 0, _, _, r, acc => (acc, r)
  | k + 1, s, off, r, acc =>
    if r = 0 then (acc, r)
    else
      readInner d k (s + 1) 0 (r - min r (512 - off))
        (acc ++ readRange d s off (min r (512 - off)))

/-- The chain-walking loop of `write_at`
(`while current_cluster < END_CLUSTER && rest > 0`): skip whole
clusters while `offset >= bytes_per_cluster`, else write into the
current cluster from sector `offset / 512` on, stop when the buffer is
exhausted, else move to the next cluster.  The loop is unbounded in the
source; fuel bounds it here. -/
def write_at_go (g : Geom) (f : FAT) (fd : FatDisk) :
    Nat → Disk → Nat → Nat → List Nat → Option (Disk × List Nat)
  | 0, _, _, _, _ => none
  | fuel + 1, d, cur, off, rem =>
    if cur < END_CLUSTER ∧ rem ≠ [] then
      if g.bytes_per_cluster ≤ off then
        write_at_go g f fd fuel d (f.get_next_cluster fd cur) (off - g.bytes_per_cluster) rem
      else
        match writeInner (g.sectors_per_cluster - off / 512) d
            (g.first_sector_of_cluster cur + off / 512) (off % 512) rem with
        | (d2, rem2) =>
          if rem2 = [] then some (d2, rem2)
          else write_at_go g f fd fuel d2 (f.get_next_cluster fd cur) 0 rem2
    else some (d, rem)

/-- The chain-walking loop of `read_at`, symmetric to the write loop. -/
def read_at_go (g : Geom) (f : FAT) (fd : FatDisk) (d : Disk) :
    Nat → Nat → Nat → Nat → List Nat → Option (List Nat)
  | 0, _, _, _, _ => none
  | fuel + 1, cur, off, r, acc =>
    if cur < END_CLUSTER ∧ r ≠ 0 then
      if g.bytes_per_cluster ≤ off then
        read_at_go g f fd d fuel (f.get_next_cluster fd cur) (off - g.bytes_per_cluster) r acc
      else
        match readInner d (g.sectors_per_cluster - off / 512)
            (g.first_sector_of_cluster cur + off / 512) (off % 512) r acc with
        | (acc2, r2) =>
          if r2 = 0 then some acc2
          else read_at_go g f fd d fuel (f.get_next_cluster fd cur) 0 r2 acc2
    else some acc

/-- `ShortDirEntry::write_at`: 0 bytes for a file without clusters or an
empty buffer, else the loop; returns the new store and `write_size`
(`buf.len() - rest`). -/
def sde_write_at (g : Geom) (f : FAT) (fd : FatDisk) (fuel : Nat) (d : Disk)
    (first_cluster offset : Nat) (buf : List Nat) : Option (Disk × Nat) :=
  if first_cluster = 0 ∨ buf = [] then some (d, 0)
  else
    (write_at_go g f fd fuel d first_cluster offset buf).map
      (fun p => (p.1, buf.length - p.2.length))

/-- `ShortDirEntry::read_at`: 0 bytes for a file without clusters or an
empty buffer, else the loop; returns the bytes read (the source fills
the caller's buffer prefix with exactly this list). -/
def sde_read_at (g : Geom) (f : FAT) (fd : FatDisk) (fuel : Nat) (d : Disk)
    (first_cluster offset len : Nat) : Option (List Nat) :=
  if first_cluster = 0 ∨ len = 0 then some []
  else read_at_go g f fd d fuel first_cluster offset len []

/-- The sectors belonging to the data ranges of a cluster list. -/
def sectorInClusters (g : Geom) (cs : List Nat) (s : Nat) : Prop :=
  ∃ c ∈ cs, g.first_sector_of_cluster c ≤ s ∧
    s < g.first_sector_of_cluster c + g.sectors_per_cluster

lemma readRange_writeRange (d : Disk) (s off : Nat) (bytes : List Nat) :
    readRange (writeRange d s off bytes) s off bytes.length = bytes := by
  unfold readRange writeRange
  apply List.ext_getElem
  · simp
  · intro i h1 h2
    simp only [List.getElem_map, List.getElem_range]
    have hc : True ∧ off ≤ off + i ∧ off + i < off + bytes.length :=
      ⟨trivial, by omega, by omega⟩
    rw [if_pos hc]
    have hi : off + i - off = i := by omega
    rw [hi]
    exact List.getD_eq_getElem bytes 0 h2

lemma writeRange_frame (d : Disk) (s off : Nat) (bytes : List Nat) (s2 o : Nat)
    (h : s2 ≠ s) : writeRange d s off bytes s2 o = d s2 o := by
  unfold writeRange
  rw [if_neg (fun hh => h hh.1)]

lemma readRange_congr (d e : Disk) (s off len : Nat)
    (h : ∀ o, d s o = e s o) : readRange d s off len = readRange e s off len := by
  unfold readRange
  apply List.map_congr_left
  intro a _
  exact h (off + a)

lemma writeInner_spec :
    ∀ (k : Nat) (d : Disk) (s off : Nat) (rem : List Nat), off < 512 →
      ∃ d2, writeInner k d s off rem = (d2, rem.drop (512 * k - off)) ∧
        (∀ s2 o, s2 < s ∨ s + k ≤ s2 → d2 s2 o = d s2 o) ∧
        (∀ (e : Disk) (acc : List Nat),
          (∀ s2 o, s ≤ s2 → s2 < s + k → e s2 o = d2 s2 o) →
          readInner e k s off rem.length acc =
            (acc ++ rem.take (512 * k - off), rem.length - (512 * k - off))) := by
  intro k
  induction k with
  | zero =>
    intro d s off rem hoff
    have h0 : 512 * 0 - off = 0 := by omega
    refine ⟨d, ?_, ?_, ?_⟩
    · rw [h0, List.drop_zero]
      rfl
    · intro s2 o _
      rfl
    · intro e acc _
      rw [h0, List.take_zero, List.append_nil, Nat.sub_zero]
      rfl
  | succ k ih =>
    intro d s off rem hoff
    by_cases hrem : rem = []
    · subst hrem
      refine ⟨d, ?_, ?_, ?_⟩
      · rw [List.drop_nil]
        conv_lhs => rw [writeInner]
        rw [if_pos rfl]
      · intro s2 o _
        rfl
      · intro e acc _
        rw [List.take_nil, List.append_nil]
        conv_lhs => rw [readInner]
        simp
    · have hlen : 0 < rem.length := List.length_pos.mpr hrem
      set len := min rem.length (512 - off) with hlendef
      obtain ⟨d2, hw, hfr, hrd⟩ :=
        ih (writeRange d s off (rem.take len)) (s + 1) 0 (rem.drop len) (by omega)
      have hdrop : (rem.drop len).drop (512 * k - 0) = rem.drop (512 * (k + 1) - off) := by
        rw [List.drop_drop]
        by_cases hsp : 512 - off ≤ rem.length
        · have hl : len = 512 - off := by omega
          have hidx : len + (512 * k - 0) = 512 * (k + 1) - off := by omega
          rw [hidx]
        · have hl : len = rem.length := by omega
          rw [List.drop_eq_nil_of_le (by omega), List.drop_eq_nil_of_le (by omega)]
      refine ⟨d2, ?_, ?_, ?_⟩
      · conv_lhs => rw [writeInner]
        rw [if_neg hrem, ← hlendef, hw, hdrop]
      · intro s2 o hs2
        rcases hs2 with h | h
        · rw [hfr s2 o (Or.inl (by omega))]
          exact writeRange_frame d s off (rem.take len) s2 o (by omega)
        · rw [hfr s2 o (Or.inr (by omega))]
          exact writeRange_frame d s off (rem.take len) s2 o (by omega)
      · intro e acc he
        have htl : (rem.take len).length = len := by
          rw [List.length_take]
          omega
        have her : readRange e s off len = rem.take len := by
          have h12 : ∀ o, e s o = writeRange d s off (rem.take len) s o := by
            intro o
            rw [he s o (Nat.le_refl s) (by omega)]
            exact hfr s o (Or.inl (by omega))
          rw [readRange_congr e (writeRange d s off (rem.take len)) s off len h12]
          have hrw0 := readRange_writeRange d s off (rem.take len)
          rw [htl] at hrw0
          exact hrw0
        have hrw : rem.length - len = (rem.drop len).length := by
          rw [List.length_drop]
        have htake : rem.take len ++ (rem.drop len).take (512 * k - 0) =
            rem.take (512 * (k + 1) - off) := by
          by_cases hsp : 512 - off ≤ rem.length
          · have hidx : len + (512 * k - 0) = 512 * (k + 1) - off := by omega
            rw [← hidx, List.take_add rem len (512 * k - 0)]
          · have hl : len = rem.length := by omega
            rw [hl, List.take_length, List.drop_length, List.take_nil, List.append_nil,
              List.take_of_length_le (by omega)]
        have hcount : (rem.drop len).length - (512 * k - 0) =
            rem.length - (512 * (k + 1) - off) := by
          rw [List.length_drop]
          omega
        conv_lhs => rw [readInner]
        rw [if_neg (by omega : ¬ rem.length = 0), ← hlendef, her, hrw,
          hrd e (acc ++ rem.take len) (fun s2 o h1 h2 => he s2 o (by omega) (by omega)),
          List.append_assoc, htake, hcount]

lemma cluster_ranges_disjoint (g : Geom) (c c2 s : Nat) (hc : 2 ≤ c) (hc2 : 2 ≤ c2)
    (hne : c ≠ c2)
    (hs1 : g.first_sector_of_cluster c ≤ s)
    (hs2 : s < g.first_sector_of_cluster c + g.sectors_per_cluster) :
    ¬ (g.first_sector_of_cluster c2 ≤ s ∧
        s < g.first_sector_of_cluster c2 + g.sectors_per_cluster) := by
  intro h
  unfold Geom.first_sector_of_cluster at hs1 hs2 h
  rcases Nat.lt_or_ge c c2 with hlt | hge
  · have hm : (c - 2 + 1) * g.sectors_per_cluster ≤ (c2 - 2) * g.sectors_per_cluster :=
      Nat.mul_le_mul_right _ (by omega)
    rw [Nat.add_mul] at hm
    omega
  · have hlt2 : c2 < c := by omega
    have hm : (c2 - 2 + 1) * g.sectors_per_cluster ≤ (c - 2) * g.sectors_per_cluster :=
      Nat.mul_le_mul_right _ (by omega)
    rw [Nat.add_mul] at hm
    omega

lemma write_read_chain (g : Geom) (f : FAT) (fd : FatDisk) :
    ∀ (cs : List Nat) (fuel : Nat) (d : Disk) (off : Nat) (rem acc : List Nat),
      cs ≠ [] →
      List.Chain' (fun a b => f.get_next_cluster fd a = b) cs →
      (∀ c ∈ cs, 2 ≤ c ∧ c < END_CLUSTER) →
      cs.Nodup →
      rem ≠ [] →
      off + rem.length ≤ cs.length * g.bytes_per_cluster →
      cs.length ≤ fuel →
      ∃ d2, write_at_go g f fd fuel d (cs.headD 0) off rem = some (d2, []) ∧
        (∀ s2 o, ¬ sectorInClusters g cs s2 → d2 s2 o = d s2 o) ∧
        read_at_go g f fd d2 fuel (cs.headD 0) off rem.length acc = some (acc ++ rem) := by
  intro cs
  induction cs with
  | nil =>
    intro fuel d off rem acc hne
    exact absurd rfl hne
  | cons c cs ih =>
    intro fuel d off rem acc _ hchain hvalid hnodup hrem hcov hfuel
    obtain ⟨hc2, hcEnd⟩ := hvalid c (List.mem_cons_self c cs)
    have hrlen : 0 < rem.length := List.length_pos.mpr hrem
    have hlencons : (c :: cs).length = cs.length + 1 := List.length_cons c cs
    cases fuel with
    | zero =>
      rw [hlencons] at hfuel
      omega
    | succ fu =>
      have hfu : cs.length ≤ fu := by omega
      have hcond : c < END_CLUSTER ∧ rem ≠ [] := ⟨hcEnd, hrem⟩
      have hcondr : c < END_CLUSTER ∧ rem.length ≠ 0 := ⟨hcEnd, by omega⟩
      by_cases hskip : g.bytes_per_cluster ≤ off
      · -- the cluster is skipped: offset -= bytes_per_cluster, advance
        cases cs with
        | nil =>
          exfalso
          rw [hlencons] at hcov
          simp only [List.length_nil, Nat.zero_add, Nat.one_mul] at hcov
          omega
        | cons c2 t =>
          have hnext : f.get_next_cluster fd c = c2 := (List.chain'_cons.mp hchain).1
          have hcov2 : (off - g.bytes_per_cluster) + rem.length ≤
              (c2 :: t).length * g.bytes_per_cluster := by
            rw [hlencons] at hcov
            rw [Nat.add_mul] at hcov
            omega
          obtain ⟨d2, hw, hfr, hrd⟩ := ih fu d (off - g.bytes_per_cluster) rem acc
            (by simp) (List.chain'_cons.mp hchain).2
            (fun x hx => hvalid x (List.mem_cons_of_mem c hx))
            (List.nodup_cons.mp hnodup).2 hrem hcov2 hfu
          simp only [List.headD_cons] at hw hrd
          refine ⟨d2, ?_, ?_, ?_⟩
          · show write_at_go g f fd (fu + 1) d c off rem = some (d2, [])
            conv_lhs => rw [write_at_go]
            rw [if_pos hcond, if_pos hskip, hnext]
            exact hw
          · intro s2 o hno
            refine hfr s2 o ?_
            intro hin
            obtain ⟨c3, hc3, hrange⟩ := hin
            exact hno ⟨c3, List.mem_cons_of_mem c hc3, hrange⟩
          · show read_at_go g f fd d2 (fu + 1) c off rem.length acc = some (acc ++ rem)
            conv_lhs => rw [read_at_go]
            rw [if_pos hcondr, if_pos hskip, hnext]
            exact hrd
      · -- write into this cluster
        have hoffb : off < g.bytes_per_cluster := by omega
        have hbpc : g.bytes_per_cluster = 512 * g.sectors_per_cluster := rfl
        have hnth : off / 512 < g.sectors_per_cluster := by omega
        obtain ⟨dW, hwI, hfrI, hrdI⟩ := writeInner_spec
          (g.sectors_per_cluster - off / 512) d
          (g.first_sector_of_cluster c + off / 512) (off % 512) rem (by omega)
        have hcap : 512 * (g.sectors_per_cluster - off / 512) - off % 512 =
            g.bytes_per_cluster - off := by
          rw [hbpc]
          omega
        have hsk : g.first_sector_of_cluster c + off / 512 +
            (g.sectors_per_cluster - off / 512) =
            g.first_sector_of_cluster c + g.sectors_per_cluster := by
          omega
        by_cases hfits : rem.length ≤ g.bytes_per_cluster - off
        · -- the buffer ends inside this cluster
          have hdrop : rem.drop (512 * (g.sectors_per_cluster - off / 512) - off % 512) =
              [] := by
            rw [hcap]
            exact List.drop_eq_nil_of_le hfits
          refine ⟨dW, ?_, ?_, ?_⟩
          · show write_at_go g f fd (fu + 1) d c off rem = some (dW, [])
            conv_lhs => rw [write_at_go]
            rw [if_pos hcond, if_neg hskip, hwI, hdrop]
            rfl
          · intro s2 o hno
            refine hfrI s2 o ?_
            have hnoc : ¬ (g.first_sector_of_cluster c ≤ s2 ∧
                s2 < g.first_sector_of_cluster c + g.sectors_per_cluster) :=
              fun hh => hno ⟨c, List.mem_cons_self c cs, hh⟩
            omega
          · show read_at_go g f fd dW (fu + 1) c off rem.length acc = some (acc ++ rem)
            conv_lhs => rw [read_at_go]
            rw [if_pos hcondr, if_neg hskip,
              hrdI dW acc (fun s2 o h1 h2 => rfl), hcap,
              List.take_of_length_le hfits,
              (by omega : rem.length - (g.bytes_per_cluster - off) = 0)]
            rfl
        · -- the buffer spills into the next cluster
          cases cs with
          | nil =>
            exfalso
            rw [hlencons] at hcov
            simp only [List.length_nil, Nat.zero_add, Nat.one_mul] at hcov
            omega
          | cons c2 t =>
            have hnext : f.get_next_cluster fd c = c2 := (List.chain'_cons.mp hchain).1
            have hdroplen :
                (rem.drop (512 * (g.sectors_per_cluster - off / 512) - off % 512)).length =
                rem.length - (g.bytes_per_cluster - off) := by
              rw [List.length_drop, hcap]
            have hdne :
                rem.drop (512 * (g.sectors_per_cluster - off / 512) - off % 512) ≠ [] := by
              refine List.length_pos.mp ?_
              rw [hdroplen]
              omega
            have hcov2 :
                0 + (rem.drop (512 * (g.sectors_per_cluster - off / 512) - off % 512)).length ≤
                (c2 :: t).length * g.bytes_per_cluster := by
              rw [hdroplen]
              rw [hlencons, Nat.add_mul] at hcov
              omega
            obtain ⟨dF, hwF, hfrF, hrdF⟩ := ih fu dW 0
              (rem.drop (512 * (g.sectors_per_cluster - off / 512) - off % 512))
              (acc ++ rem.take (512 * (g.sectors_per_cluster - off / 512) - off % 512))
              (by simp) (List.chain'_cons.mp hchain).2
              (fun x hx => hvalid x (List.mem_cons_of_mem c hx))
              (List.nodup_cons.mp hnodup).2 hdne hcov2 hfu
            simp only [List.headD_cons] at hwF hrdF
            have hagree : ∀ s2 o,
                g.first_sector_of_cluster c + off / 512 ≤ s2 →
                s2 < g.first_sector_of_cluster c + off / 512 +
                  (g.sectors_per_cluster - off / 512) →
                dF s2 o = dW s2 o := by
              intro s2 o h1 h2
              refine hfrF s2 o ?_
              intro hin
              obtain ⟨c3, hc3, hrange⟩ := hin
              have hc3v := hvalid c3 (List.mem_cons_of_mem c hc3)
              have hc3ne : c ≠ c3 := by
                intro hh
                exact (List.nodup_cons.mp hnodup).1 (hh ▸ hc3)
              exact cluster_ranges_disjoint g c c3 s2 hc2 hc3v.1 hc3ne
                (by omega) (by omega) hrange
            refine ⟨dF, ?_, ?_, ?_⟩
            · show write_at_go g f fd (fu + 1) d c off rem = some (dF, [])
              conv_lhs => rw [write_at_go]
              rw [if_pos hcond, if_neg hskip, hwI]
              simp only [if_neg hdne, hnext]
              exact hwF
            · intro s2 o hno
              have hstep1 : dF s2 o = dW s2 o := by
                refine hfrF s2 o ?_
                intro hin
                obtain ⟨c3, hc3, hrange⟩ := hin
                exact hno ⟨c3, List.mem_cons_of_mem c hc3, hrange⟩
              have hnoc : ¬ (g.first_sector_of_cluster c ≤ s2 ∧
                  s2 < g.first_sector_of_cluster c + g.sectors_per_cluster) :=
                fun hh => hno ⟨c, List.mem_cons_self c (c2 :: t), hh⟩
              rw [hstep1]
              refine hfrI s2 o ?_
              omega
            · show read_at_go g f fd dF (fu + 1) c off rem.length acc = some (acc ++ rem)
              conv_lhs => rw [read_at_go]
              rw [if_pos hcondr, if_neg hskip, hrdI dF acc hagree]
              have hrne : rem.length -
                  (512 * (g.sectors_per_cluster - off / 512) - off % 512) ≠ 0 := by
                rw [hcap]
                omega
              simp only [if_neg hrne, hnext]
              have hridx : rem.length -
                  (512 * (g.sectors_per_cluster - off / 512) - off % 512) =
                  (rem.drop (512 * (g.sectors_per_cluster - off / 512) - off % 512)).length := by
                rw [List.length_drop]
              rw [hridx, hrdF, List.append_assoc, List.take_append_drop]

/-- C1: read/write round trip.  For every file whose cluster chain `cs`
is well formed — linked through the FAT, made of distinct data clusters
(`2 ≤ c < END_CLUSTER`), and long enough to cover
`[offset, offset + |buf|)` (which is what `increase_size` establishes
before `VFile::write_at` calls the short-entry `write_at`) —
`write_at(offset, buf)` returns `n = |buf|`, and an immediately
subsequent `read_at(offset, buf2)` with `|buf2| = n` returns exactly
the bytes of `buf`. -/
theorem C1_roundtrip (g : Geom) (f : FAT) (fd : FatDisk) (cs : List Nat) (fuel : Nat)
    (d : Disk) (off : Nat) (buf : List Nat)
    (hne : cs ≠ [])
    (hchain : List.Chain' (fun a b => f.get_next_cluster fd a = b) cs)
    (hvalid : ∀ c ∈ cs, 2 ≤ c ∧ c < END_CLUSTER)
    (hnodup : cs.Nodup)
    (hbuf : buf ≠ [])
    (hcov : off + buf.length ≤ cs.length * g.bytes_per_cluster)
    (hfuel : cs.length ≤ fuel) :
    ∃ d2, sde_write_at g f fd fuel d (cs.headD 0) off buf = some (d2, buf.length) ∧
      sde_read_at g f fd fuel d2 (cs.headD 0) off buf.length = some buf := by
  obtain ⟨d2, hw, _, hrd⟩ := write_read_chain g f fd cs fuel d off buf []
    hne hchain hvalid hnodup hbuf hcov hfuel
  have hhead : cs.headD 0 ≠ 0 := by
    cases cs with
    | nil => exact absurd rfl hne
    | cons c t =>
      have hcv := (hvalid c (List.mem_cons_self c t)).1
      rw [List.headD_cons]
      omega
  have hnz : ¬ (cs.headD 0 = 0 ∨ buf = []) := fun h => h.elim hhead hbuf
  have hnz2 : ¬ (cs.headD 0 = 0 ∨ buf.length = 0) :=
    fun h => h.elim hhead (fun hb => hbuf (List.length_eq_zero.mp hb))
  refine ⟨d2, ?_, ?_⟩
  · unfold sde_write_at
    rw [if_neg hnz, hw]
    show some (d2, buf.length - ([] : List Nat).length) = some (d2, buf.length)
    rw [List.length_nil, Nat.sub_zero]
  · unfold sde_read_at
    rw [if_neg hnz2, hrd, List.nil_append]

/-- The FAT store of the C1 witness: the entry of cluster 2 carries the
end-of-chain marker. -/
def fdC1 : FatDisk := fun s o => if s = 1 ∧ o = 8 then END_CLUSTER else 0

/-- Witness for C1: a one-byte write and read at offset 0 of a one-cluster
file. -/
theorem C1_roundtrip_witness :
    ((([(2 : Nat)] : List Nat) ≠ [] ∧
      List.Chain' (fun a b => FAT.get_next_cluster ⟨1, 50⟩ fdC1 a = b) [2] ∧
      (∀ c ∈ ([(2 : Nat)] : List Nat), 2 ≤ c ∧ c < END_CLUSTER) ∧
      ([(2 : Nat)] : List Nat).Nodup ∧
      ([(7 : Nat)] : List Nat) ≠ [] ∧
      0 + ([(7 : Nat)] : List Nat).length ≤
        ([(2 : Nat)] : List Nat).length * Geom.bytes_per_cluster ⟨1, 100⟩ ∧
      ([(2 : Nat)] : List Nat).length ≤ 1)) ∧
    ∃ d2, sde_write_at ⟨1, 100⟩ ⟨1, 50⟩ fdC1 1 (fun _ _ => 0) 2 0 [7] = some (d2, 1) ∧
      sde_read_at ⟨1, 100⟩ ⟨1, 50⟩ fdC1 1 d2 2 0 1 = some [7] :=
  ⟨⟨by decide, List.chain'_singleton 2, by decide, by decide, by decide, by decide,
      by decide⟩,
    C1_roundtrip ⟨1, 100⟩ ⟨1, 50⟩ fdC1 [2] 1 (fun _ _ => 0) 0 [7] (by decide)
      (List.chain'_singleton 2) (by decide) (by decide) (by decide) (by decide) (by decide)⟩

end WowFat
